import Mathlib

/-!
Verification of the docutils snapshot: the `universal` transform pipeline
(`docutils/transforms/universal.py`) and the I/O encoding negotiation
(`docutils/io.py`).

The document tree is embedded arena-style: nodes live in a list indexed by
natural numbers; `childrenOf` and `parentOf` are parallel lists giving each
node its ordered child indices and (optional) parent index.  Mutation in the
Python source becomes functional update of a `Doc` record.  Generic tree
machinery from `docutils/nodes.py` is not part of the snapshot; where a claim
depends on it, the corresponding definition is modelled from the spec and says
so in its doc comment.
-/

namespace Docutils

/-- Node kinds of the docutils tree that the transforms in
`transforms/universal.py` inspect (`isinstance` checks and visitor
dispatch). -/
inductive Kind where
  | document
  | section
  | title
  | subtitle
  | transition
  | reference
  | footnoteReference
  | citationReference
  | target
  | systemMessage
  | problematic
  | paragraph
  | other
deriving Repr, DecidableEq

/-- Per-node payload: the attributes of `docutils.nodes` objects that the
transforms read or write (`refname`, `refid`, `resolved`, `referenced`,
`level`, `rawsource`, backrefs and the generated-`ids` attribute). -/
structure NodeData where
  kind : Kind
  refname : Option String
  refid : Option Nat
  resolved : Bool
  referenced : Bool
  level : Nat
  rawsource : String
  backrefs : List Nat
  nodeIds : List Nat
  text : String
deriving Repr, DecidableEq

/-- A fresh node of the given kind with no attributes set. -/
def mkNode (k : Kind) : NodeData :=
  { kind := k, refname := none, refid := none, resolved := false,
    referenced := false, level := 0, rawsource := "", backrefs := [],
    nodeIds := [], text := "" }

/-- The document state: the node arena, the tree structure (children and
parent of each arena index), `document.nameids` (name to id, value `none`
models Python `None` for a duplicate name), `document.ids` (generated id to
node), `document.transform_messages`, the writer reporter's `report_level`,
and the counter behind `document.set_id`. -/
structure Doc where
  nodes : List NodeData
  childrenOf : List (List Nat)
  parentOf : List (Option Nat)
  root : Nat
  nameids : List (String × Option Nat)
  idsTable : List (Nat × Nat)
  transformMessages : List Nat
  reportLevel : Nat
  nextId : Nat
deriving Repr, DecidableEq

/-- Node payload at arena index `n`. -/
def Doc.node (doc : Doc) (n : Nat) : NodeData :=
  doc.nodes.getD n (mkNode Kind.other)

/-- Replace the payload at arena index `n`. -/
def Doc.setNode (doc : Doc) (n : Nat) (d : NodeData) : Doc :=
  { doc with nodes := doc.nodes.set n d }

/-- Ordered children (arena indices) of node `n`. -/
def Doc.children (doc : Doc) (n : Nat) : List Nat :=
  doc.childrenOf.getD n []

/-- Replace the child list of node `n`. -/
def Doc.setChildren (doc : Doc) (n : Nat) (cs : List Nat) : Doc :=
  { doc with childrenOf := doc.childrenOf.set n cs }

/-- Parent (arena index) of node `n`, `none` at the document root. -/
def Doc.parent (doc : Doc) (n : Nat) : Option Nat :=
  (doc.parentOf.getD n none)

/-- Repoint the parent of node `n`. -/
def Doc.setParent (doc : Doc) (n : Nat) (p : Option Nat) : Doc :=
  { doc with parentOf := doc.parentOf.set n p }

/-- Append a fresh, detached node to the arena; returns the updated document
and the new node's arena index. -/
def Doc.push (doc : Doc) (d : NodeData) : Doc × Nat :=
  ({ doc with
      nodes := doc.nodes ++ [d],
      childrenOf := doc.childrenOf ++ [[]],
      parentOf := doc.parentOf ++ [none] },
   doc.nodes.length)

/-- Association-list lookup, mirroring Python dict access on
`document.nameids`: `none` when the key is absent. -/
def alistLookup : List (String × Option Nat) → String → Option (Option Nat)
  | [], _ => none
  | (k, v) :: rest, key => if k = key then some v else alistLookup rest key

/-- `document.nameids.get(refname)`: Python `.get` collapses an absent key
and a key stored with value `None` (a duplicate name) into `None`. -/
def nameidsGet (nameids : List (String × Option Nat)) (key : String) :
    Option Nat :=
  match alistLookup nameids key with
  | none => none
  | some v => v

/-- `document.ids[id]`: generated-id table lookup. -/
def idsLookup : List (Nat × Nat) → Nat → Option Nat
  | [], _ => none
  | (k, v) :: rest, key => if k = key then some v else idsLookup rest key

/-!
## `docutils/io.py`: `Input.decode` encoding negotiation

`Input.decode` builds a candidate list and returns the first successful
decode.  The Python codec machinery (`unicode(data, enc)`) is external to the
snapshot, so a decode attempt for a fixed input is abstracted as a function
`dec : String → Option σ` from encoding name to decoded result (`none` models
a raised `UnicodeError`/`LookupError`, both of which the loop catches).

The three `locale` calls are wrapped in `try/except` blocks: an outer `none`
models the call raising (nothing appended), the inner value is what the call
returned (`locale.getlocale()[1]` and `locale.getdefaultlocale()[1]` may be
Python `None`).
-/

/-- The `encodings` list built by `Input.decode` (io.py lines 57-70):
`[input_encoding, 'utf-8']`, then each locale-derived candidate when its call
does not raise, then `'latin-1'`. -/
def decodeEncodings (inputEncoding : Option String) (codeset : Option String)
    (localeEnc defaultLocaleEnc : Option (Option String)) :
    List (Option String) :=
  [inputEncoding, some "utf-8"]
    ++ (match codeset with | some c => [some c] | none => [])
    ++ (match localeEnc with | some v => [v] | none => [])
    ++ (match defaultLocaleEnc with | some v => [v] | none => [])
    ++ [some "latin-1"]

/-- The `for enc in encodings` loop of `Input.decode` (io.py lines 71-79):
skip falsy entries (`None` or the empty string), return the first successful
decode, `none` (the `raise UnicodeError`) when the list is exhausted. -/
def decodeTry (dec : String → Option σ) : List (Option String) → Option σ
  | [] => none
  | e :: rest =>
    match e with
    | none => decodeTry dec rest
    | some enc =>
      if enc = "" then decodeTry dec rest
      else
        match dec enc with
        | some t => some t
        | none => decodeTry dec rest

/-- `Input.decode` (io.py lines 47-81): negotiate over the candidate list. -/
def Input.decode (dec : String → Option σ) (inputEncoding codeset : Option String)
    (localeEnc defaultLocaleEnc : Option (Option String)) : Option σ :=
  decodeTry dec (decodeEncodings inputEncoding codeset localeEnc defaultLocaleEnc)

/-- The candidate order exactly as the spec sentence states it: configured
input encoding, UTF-8, locale codeset, locale encoding, system default locale
encoding, Latin-1, with empty/`None` entries skipped. -/
def specDecodeOrder (inputEncoding codeset : Option String)
    (localeEnc defaultLocaleEnc : Option (Option String)) : List String :=
  (([inputEncoding, some "utf-8", codeset, localeEnc.join, defaultLocaleEnc.join,
     some "latin-1"].filterMap id).filter (fun s => decide (s ≠ "")))

/-- First candidate that decodes successfully, per the spec's words. -/
def firstSuccess (dec : String → Option σ) : List String → Option σ
  | [] => none
  | enc :: rest =>
    match dec enc with
    | some t => some t
    | none => firstSuccess dec rest

/-!
## `docutils/transforms/universal.py`: the transform passes

Helpers from `docutils/nodes.py` that the transforms call are not part of the
snapshot; each such helper below is modelled from the spec and marked so.
-/

/-- Modelled from the spec: `document.reporter.error` (the reporter lives
outside the snapshot).  "Side effect: diagnostics are appended to the
document's message list and given unique ids" — an error-severity (level 3)
`system_message` node is created and appended to `transform_messages`;
returns the new node's arena index. -/
def Doc.reporterError (doc : Doc) (text : String) : Doc × Nat :=
  let r := doc.push { mkNode Kind.systemMessage with level := 3, text := text }
  ({ r.1 with transformMessages := r.1.transformMessages ++ [r.2] }, r.2)

/-- Modelled from the spec: `document.set_id` (in `docutils/nodes.py`,
outside the snapshot) — generate a fresh unique id for the node, register it
in `document.ids`, record it in the node's `ids` attribute, and return it. -/
def Doc.setId (doc : Doc) (n : Nat) : Doc × Nat :=
  let i := doc.nextId
  let doc1 := doc.setNode n { doc.node n with nodeIds := (doc.node n).nodeIds ++ [i] }
  ({ doc1 with idsTable := doc1.idsTable ++ [(i, n)], nextId := i + 1 }, i)

/-- Modelled from the spec: `Element.replace(old, new)` (in
`docutils/nodes.py`, outside the snapshot) — "replace the reference node in
its parent": substitute `new` for the first occurrence of `old` in a child
list. -/
def replaceFirst : List Nat → Nat → Nat → List Nat
  | [], _, _ => []
  | x :: xs, old, new => if x = old then new :: xs else x :: replaceFirst xs old new

/-- The `for resolver_function in self.unknown_reference_resolvers` loop with
`break` (universal.py lines 203-205): try each callback in order; a callback
returning a truthy value (here: `some` of the mutated document) stops the
loop. -/
def tryResolvers : List (Doc → Nat → Option Doc) → Doc → Nat → Option Doc
  | [], _, _ => none
  | f :: fs, doc, n =>
    match f doc n with
    | some doc1 => some doc1
    | none => tryResolvers fs doc n

/-- The resolution branch of `visit_reference` (universal.py lines 221-225):
`del node['refname']`, `node['refid'] = id`,
`self.document.ids[id].note_referenced_by(id=id)` ("mark the referenced
target as noted", modelled from the spec since `note_referenced_by` lives in
`docutils/nodes.py`), `node.resolved = 1`. -/
def resolveReference (doc : Doc) (n id : Nat) : Doc :=
  let doc1 := doc.setNode n { doc.node n with refname := none, refid := some id }
  let doc2 :=
    match idsLookup doc1.idsTable id with
    | some t => doc1.setNode t { doc1.node t with referenced := true }
    | none => doc1
  doc2.setNode n { doc2.node n with resolved := true }

/-- The error branch of `visit_reference` (universal.py lines 206-220): build
the "Duplicate target name"/"Unknown target name" error, give it a generated
id, build a `problematic` node wrapping the raw text with `refid` pointing at
the message, give it a generated id, record the back-reference on the
message, and replace the reference by the problematic node in its parent. -/
def unknownReference (doc : Doc) (n : Nat) (refname : String) : Doc :=
  let msgText :=
    if (alistLookup doc.nameids refname).isSome then
      "Duplicate target name, cannot be used as a unique reference: \"" ++
        refname ++ "\"."
    else "Unknown target name: \"" ++ refname ++ "\"."
  let r1 := doc.reporterError msgText
  let r2 := r1.1.setId r1.2
  let r3 := r2.1.push
    { mkNode Kind.problematic with
        rawsource := (doc.node n).rawsource,
        text := (doc.node n).rawsource,
        refid := some r2.2 }
  let r4 := r3.1.setId r3.2
  let doc5 := r4.1.setNode r1.2
    { r4.1.node r1.2 with backrefs := (r4.1.node r1.2).backrefs ++ [r4.2] }
  match doc5.parent n with
  | some p =>
    (doc5.setChildren p (replaceFirst (doc5.children p) n r3.2)).setParent
      r3.2 (some p)
  | none => doc5

/-- `FinalCheckVisitor.visit_reference` (universal.py lines 197-225), also
dispatched for `footnote_reference` and `citation_reference` (line 227).
Returns the updated document. -/
def visitReference (resolvers : List (Doc → Nat → Option Doc)) (doc : Doc)
    (n : Nat) : Doc :=
  if (doc.node n).resolved then doc
  else
    match (doc.node n).refname with
    | none => doc
    | some refname =>
      match nameidsGet doc.nameids refname with
      | some id => resolveReference doc n id
      | none =>
        match tryResolvers resolvers doc n with
        | some doc1 => doc1
        | none => unknownReference doc n refname

/-- Outcome of the `while index == len(sibling.parent) - 1` walk of
`visit_transition` (universal.py lines 276-289): `found sibling index` is the
state at normal loop exit; `root` is the early return taken when the walk
reaches the document root; `out` only signals exhausted fuel (the Python loop
has no such case; the fuel passed by `visitTransition` is large enough for
every acyclic tree). -/
inductive ClimbResult where
  | found (sibling index : Nat)
  | root
  | out
deriving Repr, DecidableEq

/-- The upward walk of `visit_transition` (universal.py lines 276-289),
entered with `sibling := node` and the node's (post-legality) index: while
`sibling` is the last child of its parent, move to the parent; if that parent
is the document root's parent (none), report `root`; on loop exit report the
current sibling and its index in its own parent. -/
def climbLoop (doc : Doc) : Nat → Nat → Nat → ClimbResult
  | 0, _, _ => ClimbResult.out
  | fuel + 1, sibling, index =>
    (doc.parent sibling).elim ClimbResult.out (fun p =>
      if index = (doc.children p).length - 1 then
        (doc.parent p).elim ClimbResult.root (fun gp =>
          climbLoop doc fuel p ((doc.children gp).indexOf p))
      else ClimbResult.found sibling index)

/-- The legality checks of `visit_transition` (universal.py lines 251-266):
the error text when the transition illegally begins its parent, or follows
another transition, `none` when legal. -/
def transitionError (doc : Doc) (n par : Nat) : Option String :=
  let sibs := doc.children par
  let index := sibs.indexOf n
  if index = 0 ∨ ((doc.node (sibs.getD 0 0)).kind = Kind.title ∧
      (index = 1 ∨ ((doc.node (sibs.getD 1 0)).kind = Kind.subtitle ∧
        index = 2))) then
    some "Document or section may not begin with a transition."
  else if (doc.node (sibs.getD (index - 1) 0)).kind = Kind.transition then
    some ("At least one body element must separate transitions; " ++
      "adjacent transitions are not allowed.")
  else none

/-- The legality step of `visit_transition` (universal.py lines 251-270):
when the transition is illegally placed, the error node is inserted
immediately before it, shifting its index by one. Returns the updated
document and index. -/
def transitionLegality (doc : Doc) (n par : Nat) : Doc × Nat :=
  (transitionError doc n par).elim (doc, (doc.children par).indexOf n)
    (fun t =>
      let r := doc.reporterError t
      ((r.1.setChildren par (List.insertIdx ((doc.children par).indexOf n) r.2
          (r.1.children par))).setParent r.2 (some par),
        (doc.children par).indexOf n + 1))

/-- The relocation step of `visit_transition` (universal.py lines 271-293):
a transition that is not the last child stays; otherwise the upward walk
either finds the ancestor behind which the transition is reinserted, or
reaches the document root, in which case an error is inserted right after
the transition. -/
def transitionMove (doc1 : Doc) (n par index1 : Nat) : Doc :=
  if index1 ≠ (doc1.children par).length - 1 then doc1
  else
    match climbLoop doc1 (doc1.nodes.length + 1) n index1 with
    | ClimbResult.root =>
      let r := doc1.reporterError "Document may not end with a transition."
      (r.1.setChildren par (List.insertIdx ((r.1.children par).indexOf n + 1) r.2
        (r.1.children par))).setParent r.2 (some par)
    | ClimbResult.found sib sidx =>
      (doc1.parent sib).elim doc1 (fun sp =>
        let d2 := doc1.setChildren par ((doc1.children par).erase n)
        (d2.setChildren sp (List.insertIdx (sidx + 1) n (d2.children sp))).setParent
          n (some sp))
    | ClimbResult.out => doc1

/-- `FinalCheckVisitor.visit_transition` (universal.py lines 229-293):
legality checks, then relocation of a transition that ends its parent. -/
def visitTransition (doc : Doc) (n : Nat) : Doc :=
  (doc.parent n).elim doc (fun par =>
    transitionMove (transitionLegality doc n par).1 n par
      (transitionLegality doc n par).2)

/-- The spec's description of the upward walk, as an inductive relation:
`ClimbRel doc k x r` means that starting at node `x`, walking up `k` times
while the current node is the last child of its parent, the walk ends with
result `r` — `some a` for "an ancestor `a` that is not the last child of its
own parent", `none` for "the walk reaches the document root". -/
inductive ClimbRel (doc : Doc) : Nat → Nat → Option Nat → Prop where
  | stop (x p : Nat) : doc.parent x = some p →
      (doc.children p).indexOf x ≠ (doc.children p).length - 1 →
      ClimbRel doc 0 x (some x)
  | root (x p : Nat) : doc.parent x = some p →
      (doc.children p).indexOf x = (doc.children p).length - 1 →
      doc.parent p = none →
      ClimbRel doc 0 x none
  | up (k x p : Nat) (r : Option Nat) : doc.parent x = some p →
      (doc.children p).indexOf x = (doc.children p).length - 1 →
      (doc.parent p).isSome →
      ClimbRel doc k p r →
      ClimbRel doc (k + 1) x r

/-- Well-formedness of one parent pointer: it stays inside the arena and is
matched by membership in the parent's child list. -/
def parentOk (doc : Doc) (b : Nat) : Prop :=
  match doc.parent b with
  | none => True
  | some q => q < doc.nodes.length ∧ b ∈ doc.children q

instance (doc : Doc) (b : Nat) : Decidable (parentOk doc b) :=
  match h : doc.parent b with
  | none => Decidable.isTrue (by unfold parentOk; rw [h]; trivial)
  | some q => decidable_of_iff (q < doc.nodes.length ∧ b ∈ doc.children q)
      (by unfold parentOk; rw [h])

/-- A depth certificate for acyclicity: each child is one level deeper than
its parent. -/
def depthOk (doc : Doc) (depth : Nat → Nat) (b : Nat) : Prop :=
  match doc.parent b with
  | none => True
  | some q => depth b = depth q + 1

instance (doc : Doc) (depth : Nat → Nat) (b : Nat) : Decidable (depthOk doc depth b) :=
  match h : doc.parent b with
  | none => Decidable.isTrue (by unfold depthOk; rw [h]; trivial)
  | some q => decidable_of_iff (depth b = depth q + 1)
      (by unfold depthOk; rw [h])

/-- The message a filtered `system_message` node fails: `visit_system_message`
(universal.py lines 132-134) removes the node from its parent when its
`level` is strictly below the writer reporter's `report_level`. -/
def lowMessage (doc : Doc) (c : Nat) : Bool :=
  (doc.node c).kind == Kind.systemMessage &&
    decide ((doc.node c).level < doc.reportLevel)

/-- `FilterMessages.apply` (universal.py lines 122-124) with
`SystemMessageFilterVisitor.visit_system_message` (lines 132-134).  Modelled
from the spec for the traversal itself: `document.walk` lives in
`docutils/nodes.py`, outside the snapshot; the spec says "visit every node;
for each diagnostic (system_message) node whose severity is below threshold,
remove it from its parent".  Removal detaches the child from its parent's
child list; as with `Element.remove`, the child's own (stale) parent pointer
is left in place. -/
def filterMessagesApply (doc : Doc) : Doc :=
  { doc with
    childrenOf := doc.childrenOf.map (fun cs => cs.filter (fun c => !lowMessage doc c)) }

/-- `TestMessages.apply` (universal.py lines 145-148): for each message in
`transform_messages`, in order, if it has no parent, append it to the
document root (`document += msg`, which also sets the message's parent). -/
def testMessagesApply (doc : Doc) : Doc :=
  doc.transformMessages.foldl
    (fun d m =>
      if (d.parent m).isNone then
        (d.setChildren d.root (d.children d.root ++ [m])).setParent m (some d.root)
      else d)
    doc

/-- The filter of `Messages.apply` (universal.py lines 101-104): messages at
or above the writer reporter's `report_level` that have no parent. -/
def qualifyingMessages (doc : Doc) : List Nat :=
  doc.transformMessages.filter
    (fun m => decide (doc.reportLevel ≤ (doc.node m).level) && (doc.parent m).isNone)

/-- `Messages.apply` (universal.py lines 98-111): if any pending message
qualifies, build a `section` (with a "Docutils System Messages" title and the
qualifying messages as its children), clear the whole `transform_messages`
list, and append the section to the document root. -/
def messagesApply (doc : Doc) : Doc :=
  let messages := qualifyingMessages doc
  if messages = [] then doc
  else
    let r1 := doc.push { mkNode Kind.title with text := "Docutils System Messages" }
    let r2 := r1.1.push (mkNode Kind.section)
    let doc3 := (r2.1.setChildren r2.2 (r1.2 :: messages)).setParent r1.2 (some r2.2)
    let doc4 := messages.foldl (fun d m => d.setParent m (some r2.2)) doc3
    let doc5 := { doc4 with transformMessages := [] }
    (doc5.setChildren doc5.root (doc5.children doc5.root ++ [r2.2])).setParent
      r2.2 (some doc5.root)

/-!
## Concrete codecs for the `StringOutput`/`StringInput` round trip

`data.encode(enc)` and `unicode(data, enc)` are Python codec calls, outside
the snapshot.  A text is a list of Unicode code points, an encoded blob a
list of bytes; the two encodings named by fixed entries of the negotiation
list (`utf-8`, `latin-1`) are modelled concretely, every other name behaves
as an unknown codec (`LookupError`, i.e. failure).
-/

/-- Modelled from the spec: the Python `latin-1` codec's encoder — a code
point below 256 is its own byte, anything else raises (`none`). -/
def latin1Encode : List Nat → Option (List Nat)
  | [] => some []
  | c :: cs =>
    if c < 256 then (latin1Encode cs).map (fun rest => c :: rest)
    else none

/-- Modelled from the spec: the Python `latin-1` codec's decoder — every byte
decodes to the code point of the same value. -/
def latin1Decode : List Nat → Option (List Nat)
  | [] => some []
  | b :: bs =>
    if b < 256 then (latin1Decode bs).map (fun rest => b :: rest)
    else none

/-- Modelled from the spec: the Python `utf-8` codec's encoder for one code
point (1 to 4 bytes, failing above the Unicode range). -/
def utf8EncodeChar (c : Nat) : Option (List Nat) :=
  if c < 0x80 then some [c]
  else if c < 0x800 then some [0xC0 + c / 0x40, 0x80 + c % 0x40]
  else if c < 0x10000 then
    some [0xE0 + c / 0x1000, 0x80 + (c / 0x40) % 0x40, 0x80 + c % 0x40]
  else if c < 0x110000 then
    some [0xF0 + c / 0x40000, 0x80 + (c / 0x1000) % 0x40,
      0x80 + (c / 0x40) % 0x40, 0x80 + c % 0x40]
  else none

/-- Modelled from the spec: the Python `utf-8` codec's encoder over a text. -/
def utf8Encode : List Nat → Option (List Nat)
  | [] => some []
  | c :: cs =>
    match utf8EncodeChar c with
    | none => none
    | some bs => (utf8Encode cs).map (fun rest => bs ++ rest)

/-- Whether a byte is a UTF-8 continuation byte. -/
def utf8Cont (b : Nat) : Bool :=
  decide (0x80 ≤ b) && decide (b < 0xC0)

/-- Modelled from the spec: one step of the Python `utf-8` codec's decoder —
classify the lead byte, check and consume the continuation bytes, recombine
the code point; returns the code point and the remaining bytes. -/
def utf8Step (b0 : Nat) (rest : List Nat) : Option (Nat × List Nat) :=
  if b0 < 0x80 then some (b0, rest)
  else if b0 < 0xC0 then none
  else if b0 < 0xE0 then
    if 1 ≤ rest.length ∧ utf8Cont (rest.getD 0 0) = true then
      some ((b0 - 0xC0) * 0x40 + (rest.getD 0 0 - 0x80), rest.drop 1)
    else none
  else if b0 < 0xF0 then
    if 2 ≤ rest.length ∧ utf8Cont (rest.getD 0 0) = true ∧
        utf8Cont (rest.getD 1 0) = true then
      some ((b0 - 0xE0) * 0x1000 + (rest.getD 0 0 - 0x80) * 0x40 +
        (rest.getD 1 0 - 0x80), rest.drop 2)
    else none
  else if b0 < 0xF8 then
    if 3 ≤ rest.length ∧ utf8Cont (rest.getD 0 0) = true ∧
        utf8Cont (rest.getD 1 0) = true ∧ utf8Cont (rest.getD 2 0) = true then
      some ((b0 - 0xF0) * 0x40000 + (rest.getD 0 0 - 0x80) * 0x1000 +
        (rest.getD 1 0 - 0x80) * 0x40 + (rest.getD 2 0 - 0x80), rest.drop 3)
    else none
  else none

/-- The decode loop, structured on a fuel counter; each step consumes at
least one byte, so `fuel = length` always suffices. -/
def utf8DecodeFuel : Nat → List Nat → Option (List Nat)
  | _, [] => some []
  | 0, _ :: _ => none
  | fuel + 1, b0 :: rest =>
    match utf8Step b0 rest with
    | none => none
    | some (c, rest2) => (utf8DecodeFuel fuel rest2).map (fun cs => c :: cs)

/-- Modelled from the spec: the Python `utf-8` codec's decoder over a byte
string. -/
def utf8Decode (bs : List Nat) : Option (List Nat) :=
  utf8DecodeFuel bs.length bs

/-- Codec table: encoder for an encoding name; unknown names fail
(`LookupError`). -/
def codecEncode (enc : String) (data : List Nat) : Option (List Nat) :=
  if enc = "utf-8" then utf8Encode data
  else if enc = "latin-1" then latin1Encode data
  else none

/-- Codec table: decoder for an encoding name; unknown names fail
(`LookupError`). -/
def codecDecode (enc : String) (data : List Nat) : Option (List Nat) :=
  if enc = "utf-8" then utf8Decode data
  else if enc = "latin-1" then latin1Decode data
  else none

/-- `StringOutput.write` (io.py lines 230-236): with `output_encoding` `None`
the data is stored unencoded, otherwise the stored destination is
`data.encode(output_encoding)`; `none` models a raised encoding error. -/
def StringOutput.write (outputEncoding : Option String) (data : List Nat) :
    Option (List Nat) :=
  match outputEncoding with
  | none => some data
  | some enc => codecEncode enc data

/-- `StringInput.read` (io.py lines 214-219): with `input_encoding` `None`
the source is returned as is, otherwise it is decoded through the
`Input.decode` negotiation (io.py lines 47-81). -/
def StringInput.read (inputEncoding codeset : Option String)
    (localeEnc defaultLocaleEnc : Option (Option String)) (source : List Nat) :
    Option (List Nat) :=
  match inputEncoding with
  | none => some source
  | some _ =>
    Input.decode (fun enc => codecDecode enc source) inputEncoding codeset
      localeEnc defaultLocaleEnc

/-!
## Example documents and depth certificates used by the witnesses
-/

/-- Example document for the message-pass witnesses: a root with a level-2
and a level-3 system message as children, report threshold 3. -/
def exDocFilter : Doc :=
  { nodes := [mkNode Kind.document,
      { mkNode Kind.systemMessage with level := 2 },
      { mkNode Kind.systemMessage with level := 3 }],
    childrenOf := [[1, 2], [], []],
    parentOf := [none, some 0, some 0],
    root := 0, nameids := [], idsTable := [], transformMessages := [],
    reportLevel := 3, nextId := 0 }

/-- Example document for C9: message 2 sits in `transform_messages` but
already has a parent (node 1), so `TestMessages` does not append it. -/
def exDoc9 : Doc :=
  { nodes := [mkNode Kind.document, mkNode Kind.section,
      { mkNode Kind.systemMessage with level := 1 }],
    childrenOf := [[1], [2], []],
    parentOf := [none, some 0, some 1],
    root := 0, nameids := [], idsTable := [], transformMessages := [2],
    reportLevel := 2, nextId := 0 }

/-- Example document for the C9 witness: one parentless pending message (3)
and one already-parented pending message (2). -/
def exDoc9b : Doc :=
  { nodes := [mkNode Kind.document, mkNode Kind.section,
      { mkNode Kind.systemMessage with level := 1 },
      { mkNode Kind.systemMessage with level := 4 }],
    childrenOf := [[1], [2], [], []],
    parentOf := [none, some 0, some 1, none],
    root := 0, nameids := [], idsTable := [], transformMessages := [2, 3],
    reportLevel := 2, nextId := 0 }

/-- The new title node built by `Messages.apply`. -/
def messagesTitleNode : NodeData :=
  { mkNode Kind.title with text := "Docutils System Messages" }

/-- Example document for the C10 witness: two pending messages, one below the
threshold (level 1) and one qualifying (level 3). -/
def exDocMsgs : Doc :=
  { nodes := [mkNode Kind.document, mkNode Kind.paragraph,
      { mkNode Kind.systemMessage with level := 1 },
      { mkNode Kind.systemMessage with level := 3 }],
    childrenOf := [[1], [], [], []],
    parentOf := [none, some 0, none, none],
    root := 0, nameids := [], idsTable := [], transformMessages := [2, 3],
    reportLevel := 2, nextId := 0 }

/-- Example document for the C1 witness: a reference (node 1) named "x"
resolving to id 7 which is registered to the target node 2. -/
def exDocRef : Doc :=
  { nodes := [mkNode Kind.document,
      { mkNode Kind.reference with refname := some "x", rawsource := "x_" },
      mkNode Kind.target],
    childrenOf := [[1, 2], [], []],
    parentOf := [none, some 0, some 0],
    root := 0, nameids := [("x", some 7)], idsTable := [(7, 2)],
    transformMessages := [], reportLevel := 2, nextId := 0 }

/-- Example document for the C2 witness: a reference (node 1) named "y" with
no matching target name. -/
def exDocRef2 : Doc :=
  { nodes := [mkNode Kind.document,
      { mkNode Kind.reference with refname := some "y", rawsource := "y_" }],
    childrenOf := [[1], []],
    parentOf := [none, some 0],
    root := 0, nameids := [], idsTable := [],
    transformMessages := [], reportLevel := 2, nextId := 5 }

/-- Example document for the C3 witness: a transition (node 3) ending a
section (node 1) that is itself followed by a paragraph (node 4) at the
root. -/
def exDocTrans : Doc :=
  { nodes := [mkNode Kind.document, mkNode Kind.section, mkNode Kind.paragraph,
      mkNode Kind.transition, mkNode Kind.paragraph],
    childrenOf := [[1, 4], [2, 3], [], [], []],
    parentOf := [none, some 0, some 1, some 1, some 0],
    root := 0, nameids := [], idsTable := [], transformMessages := [],
    reportLevel := 2, nextId := 0 }

/-- Depth certificate for `exDocTrans`. -/
def exDocTransDepth (b : Nat) : Nat :=
  [0, 1, 2, 2, 1].getD b 0

/-- Example document for the C4 witness: a transition (node 2) at the very
beginning of a section (node 1) that is followed by a paragraph. -/
def exDocTrans4 : Doc :=
  { nodes := [mkNode Kind.document, mkNode Kind.section, mkNode Kind.transition,
      mkNode Kind.paragraph, mkNode Kind.paragraph],
    childrenOf := [[1, 4], [2, 3], [], [], []],
    parentOf := [none, some 0, some 1, some 1, some 0],
    root := 0, nameids := [], idsTable := [], transformMessages := [],
    reportLevel := 2, nextId := 0 }

/-- Depth certificate for `exDocTrans4`. -/
def exDocTrans4Depth (b : Nat) : Nat :=
  [0, 1, 2, 2, 1].getD b 0

/-- Example document for the C5 witness: two adjacent transitions (nodes 2
and 3) in a section; a paragraph follows, so the second transition stays in
place after the error insertion. -/
def exDocTrans5 : Doc :=
  { nodes := [mkNode Kind.document, mkNode Kind.section, mkNode Kind.transition,
      mkNode Kind.transition, mkNode Kind.paragraph, mkNode Kind.paragraph],
    childrenOf := [[1, 5], [2, 3, 4], [], [], [], []],
    parentOf := [none, some 0, some 1, some 1, some 1, some 0],
    root := 0, nameids := [], idsTable := [], transformMessages := [],
    reportLevel := 2, nextId := 0 }

/-- Depth certificate for `exDocTrans5`. -/
def exDocTrans5Depth (b : Nat) : Nat :=
  [0, 1, 2, 2, 2, 1].getD b 0

/-!
## Lemma kit: reading the arena through updates
-/

@[simp]
theorem Doc.node_setNode_self (doc : Doc) (n : Nat) (d : NodeData)
    (h : n < doc.nodes.length) : (doc.setNode n d).node n = d := by
  simp [Doc.node, Doc.setNode, List.getD_eq_getElem?_getD, List.getElem?_set_self, h]

@[simp]
theorem Doc.node_setNode_ne (doc : Doc) (m n : Nat) (d : NodeData)
    (h : m ≠ n) : (doc.setNode m d).node n = doc.node n := by
  simp [Doc.node, Doc.setNode, List.getD_eq_getElem?_getD, List.getElem?_set_ne h]

@[simp]
theorem Doc.node_push_lt (doc : Doc) (d : NodeData) (n : Nat)
    (h : n < doc.nodes.length) : (doc.push d).1.node n = doc.node n := by
  simp [Doc.node, Doc.push, List.getD_eq_getElem?_getD, List.getElem?_append_left h]

@[simp]
theorem Doc.node_push_self (doc : Doc) (d : NodeData) :
    (doc.push d).1.node doc.nodes.length = d := by
  simp [Doc.node, Doc.push, List.getD_eq_getElem?_getD]

@[simp]
theorem Doc.children_setChildren_self (doc : Doc) (n : Nat) (cs : List Nat)
    (h : n < doc.childrenOf.length) : (doc.setChildren n cs).children n = cs := by
  simp [Doc.children, Doc.setChildren, List.getD_eq_getElem?_getD,
    List.getElem?_set_self, h]

@[simp]
theorem Doc.children_setChildren_ne (doc : Doc) (m n : Nat) (cs : List Nat)
    (h : m ≠ n) : (doc.setChildren m cs).children n = doc.children n := by
  simp [Doc.children, Doc.setChildren, List.getD_eq_getElem?_getD,
    List.getElem?_set_ne h]

@[simp]
theorem Doc.children_push_lt (doc : Doc) (d : NodeData) (n : Nat)
    (h : n < doc.childrenOf.length) : (doc.push d).1.children n = doc.children n := by
  simp [Doc.children, Doc.push, List.getD_eq_getElem?_getD, List.getElem?_append_left h]

@[simp]
theorem Doc.parent_setParent_self (doc : Doc) (n : Nat) (p : Option Nat)
    (h : n < doc.parentOf.length) : (doc.setParent n p).parent n = p := by
  simp [Doc.parent, Doc.setParent, List.getD_eq_getElem?_getD,
    List.getElem?_set_self, h]

@[simp]
theorem Doc.parent_setParent_ne (doc : Doc) (m n : Nat) (p : Option Nat)
    (h : m ≠ n) : (doc.setParent m p).parent n = doc.parent n := by
  simp [Doc.parent, Doc.setParent, List.getD_eq_getElem?_getD,
    List.getElem?_set_ne h]

@[simp]
theorem Doc.parent_push_lt (doc : Doc) (d : NodeData) (n : Nat)
    (h : n < doc.parentOf.length) : (doc.push d).1.parent n = doc.parent n := by
  simp [Doc.parent, Doc.push, List.getD_eq_getElem?_getD, List.getElem?_append_left h]

@[simp]
theorem Doc.children_setParent (doc : Doc) (m : Nat) (q : Option Nat) (c : Nat) :
    (doc.setParent m q).children c = doc.children c := rfl

@[simp]
theorem Doc.children_setNode (doc : Doc) (m : Nat) (d : NodeData) (c : Nat) :
    (doc.setNode m d).children c = doc.children c := rfl

@[simp]
theorem Doc.node_setParent (doc : Doc) (m : Nat) (q : Option Nat) (c : Nat) :
    (doc.setParent m q).node c = doc.node c := rfl

@[simp]
theorem Doc.node_setChildren (doc : Doc) (m : Nat) (cs : List Nat) (c : Nat) :
    (doc.setChildren m cs).node c = doc.node c := rfl

@[simp]
theorem Doc.parent_setChildren (doc : Doc) (m : Nat) (cs : List Nat) (c : Nat) :
    (doc.setChildren m cs).parent c = doc.parent c := rfl

@[simp]
theorem Doc.parent_setNode (doc : Doc) (m : Nat) (d : NodeData) (c : Nat) :
    (doc.setNode m d).parent c = doc.parent c := rfl

theorem Doc.parent_some_lt (doc : Doc) (n q : Nat) (h : doc.parent n = some q) :
    n < doc.parentOf.length := by
  by_contra hn
  rw [Doc.parent, List.getD_eq_default _ _ (by omega)] at h
  exact Option.noConfusion h

theorem Doc.children_ne_nil_lt (doc : Doc) (p : Nat) (h : doc.children p ≠ []) :
    p < doc.childrenOf.length := by
  by_contra hp
  rw [Doc.children, List.getD_eq_default _ _ (by omega)] at h
  exact h rfl

/-!
## Claim theorems: `Input.decode` (C7)
-/

theorem decodeTry_eq_firstSuccess (dec : String → Option σ)
    (l : List (Option String)) :
    decodeTry dec l
      = firstSuccess dec ((l.filterMap id).filter (fun s => decide (s ≠ ""))) := by
  induction l with
  | nil => rfl
  | cons e rest ih =>
    cases e with
    | none => simpa [decodeTry] using ih
    | some enc =>
      by_cases h : enc = ""
      · subst h
        simpa [decodeTry] using ih
      · cases hdec : dec enc with
        | none => simp [decodeTry, hdec, h, firstSuccess, ih]
        | some t => simp [decodeTry, hdec, h, firstSuccess]

theorem firstSuccess_eq_none_iff (dec : String → Option σ) (l : List String) :
    firstSuccess dec l = none ↔ ∀ e ∈ l, dec e = none := by
  induction l with
  | nil => simp [firstSuccess]
  | cons enc rest ih =>
    cases hdec : dec enc with
    | none => simp [firstSuccess, hdec, ih]
    | some t => simp [firstSuccess, hdec]


/-- C7: `Input.decode` tries the candidate encodings in the order configured
input encoding, UTF-8, locale codeset, locale encoding, system default locale
encoding, Latin-1 (skipping empty/`None` entries), returns the result of the
first candidate that decodes successfully, and fails (raises `UnicodeError`)
if and only if every candidate in the list fails. -/
theorem C7_decode_negotiation (dec : String → Option σ)
    (inputEncoding codeset : Option String)
    (localeEnc defaultLocaleEnc : Option (Option String)) :
    Input.decode dec inputEncoding codeset localeEnc defaultLocaleEnc
        = firstSuccess dec
            (specDecodeOrder inputEncoding codeset localeEnc defaultLocaleEnc) ∧
      (Input.decode dec inputEncoding codeset localeEnc defaultLocaleEnc = none ↔
        ∀ e ∈ specDecodeOrder inputEncoding codeset localeEnc defaultLocaleEnc,
          dec e = none) := by
  have hmain : Input.decode dec inputEncoding codeset localeEnc defaultLocaleEnc
      = firstSuccess dec
          (specDecodeOrder inputEncoding codeset localeEnc defaultLocaleEnc) := by
    rw [Input.decode, decodeTry_eq_firstSuccess]
    congr 1
    rcases inputEncoding with _ | _ <;> rcases codeset with _ | _ <;>
      rcases localeEnc with _ | (_ | _) <;> rcases defaultLocaleEnc with _ | (_ | _) <;>
      simp [decodeEncodings, specDecodeOrder, Option.join]
  exact ⟨hmain, by rw [hmain]; exact firstSuccess_eq_none_iff dec _⟩

/-!
## Claim theorems: message passes (C6, C9, C10)
-/

/-- C6: after `FilterMessages`, a `system_message` node is removed from its
parent if and only if its `level` is strictly below the report threshold. -/
theorem C6_filter_messages (doc : Doc) (p m : Nat)
    (hmem : m ∈ doc.children p)
    (hkind : (doc.node m).kind = Kind.systemMessage) :
    (m ∉ (filterMessagesApply doc).children p ↔
      (doc.node m).level < doc.reportLevel) := by
  have hp : p < doc.childrenOf.length :=
    doc.children_ne_nil_lt p (List.ne_nil_of_mem hmem)
  have hch : (filterMessagesApply doc).children p
      = (doc.children p).filter (fun c => !lowMessage doc c) := by
    simp [filterMessagesApply, Doc.children, List.getD_eq_getElem?_getD,
      List.getElem?_map]
    rcases h : doc.childrenOf[p]? with _ | cs
    · exact absurd (List.getElem?_eq_some_iff.2 ⟨hp, rfl⟩) (by simp [h])
    · simp
  rw [hch]
  simp only [List.mem_filter, hmem, true_and, lowMessage, hkind]
  by_cases hl : (doc.node m).level < doc.reportLevel <;> simp [hl]

theorem C6_filter_messages_witness :
    (1 ∈ exDocFilter.children 0 ∧ (exDocFilter.node 1).kind = Kind.systemMessage ∧
      1 ∉ (filterMessagesApply exDocFilter).children 0) ∧
    (2 ∈ exDocFilter.children 0 ∧ (exDocFilter.node 2).kind = Kind.systemMessage ∧
      2 ∈ (filterMessagesApply exDocFilter).children 0) :=
  ⟨⟨by decide, by decide,
      (C6_filter_messages exDocFilter 0 1 (by decide) (by decide)).2 (by decide)⟩,
   ⟨by decide, by decide, by
      have h := (C6_filter_messages exDocFilter 0 2 (by decide) (by decide)).1
      by_contra hc
      exact absurd (h hc) (by decide)⟩⟩

/-- C9 counterexample: `TestMessages.apply` does not append every message in
`transform_messages` — a message that already has a parent is skipped
(universal.py line 147 `if not msg.parent:`), so nothing is appended to the
document even though the pending list is non-empty. -/
theorem C9_counterexample :
    2 ∈ exDoc9.transformMessages ∧
      (exDoc9.node 2).kind = Kind.systemMessage ∧
      testMessagesApply exDoc9 = exDoc9 ∧
      2 ∉ (testMessagesApply exDoc9).children exDoc9.root := by
  refine ⟨by decide, by decide, by decide, ?_⟩
  have h : testMessagesApply exDoc9 = exDoc9 := by decide
  rw [h]
  decide

/-- The fold of `TestMessages.apply` appends, in order, exactly the pending
messages that have no parent. -/
theorem testMessages_fold_children (ms : List Nat) (d : Doc)
    (hnd : ms.Nodup) (hroot : d.root < d.childrenOf.length) :
    (ms.foldl
        (fun d m =>
          if (d.parent m).isNone then
            (d.setChildren d.root (d.children d.root ++ [m])).setParent m
              (some d.root)
          else d)
        d).children d.root
      = d.children d.root ++ ms.filter (fun m => (d.parent m).isNone) := by
  induction ms generalizing d with
  | nil => simp
  | cons m ms ih =>
    rcases List.nodup_cons.1 hnd with ⟨hm, hnd'⟩
    by_cases hpm : (d.parent m).isNone
    · have hroot' :
          ((d.setChildren d.root (d.children d.root ++ [m])).setParent m
            (some d.root)).root = d.root := rfl
      have hlen :
          ((d.setChildren d.root (d.children d.root ++ [m])).setParent m
            (some d.root)).childrenOf.length = d.childrenOf.length := by
        simp [Doc.setChildren, Doc.setParent]
      have hch :
          ((d.setChildren d.root (d.children d.root ++ [m])).setParent m
            (some d.root)).children d.root = d.children d.root ++ [m] := by
        have : (d.setChildren d.root (d.children d.root ++ [m])).children d.root
            = d.children d.root ++ [m] :=
          d.children_setChildren_self _ _ hroot
        simpa [Doc.setParent, Doc.children] using this
      have hpar : ∀ m' ∈ ms,
          ((d.setChildren d.root (d.children d.root ++ [m])).setParent m
            (some d.root)).parent m' = d.parent m' := by
        intro m' hm'
        have hne : m ≠ m' := fun he => hm (he ▸ hm')
        have h1 :
            ((d.setChildren d.root (d.children d.root ++ [m])).setParent m
              (some d.root)).parent m'
            = (d.setChildren d.root (d.children d.root ++ [m])).parent m' :=
          Doc.parent_setParent_ne _ m m' _ hne
        rw [h1]
        simp [Doc.setChildren, Doc.parent]
      have := ih ((d.setChildren d.root (d.children d.root ++ [m])).setParent m
        (some d.root)) hnd' (by rw [hroot', hlen]; exact hroot)
      rw [List.foldl_cons, if_pos hpm]
      rw [hroot'] at this
      rw [this, hch, List.filter_cons, if_pos hpm,
        List.filter_congr (fun m' hm' => by rw [hpar m' hm'])]
      simp
    · rw [List.foldl_cons, if_neg hpm, ih d hnd' hroot, List.filter_cons]
      simp [hpm]

/-- C9 amended: `TestMessages.apply` appends to the end of the document, in
order and regardless of severity level, exactly those pending messages of
`transform_messages` that have no parent. -/
theorem C9_test_messages (doc : Doc)
    (hroot : doc.root < doc.childrenOf.length)
    (hnd : doc.transformMessages.Nodup) :
    (testMessagesApply doc).children doc.root
      = doc.children doc.root
        ++ doc.transformMessages.filter (fun m => (doc.parent m).isNone) :=
  testMessages_fold_children doc.transformMessages doc hnd hroot

theorem C9_test_messages_witness :
    exDoc9b.root < exDoc9b.childrenOf.length ∧
      exDoc9b.transformMessages.Nodup ∧
      (testMessagesApply exDoc9b).children exDoc9b.root = [1, 3] := by
  refine ⟨by decide, by decide, ?_⟩
  rw [C9_test_messages exDoc9b (by decide) (by decide)]
  decide
/-- Setting parents (as `section += messages` does for each message) touches
only the `parentOf` column. -/
theorem foldl_setParent_fields (ms : List Nat) (d : Doc) (q : Option Nat) :
    (ms.foldl (fun d m => d.setParent m q) d).nodes = d.nodes ∧
      (ms.foldl (fun d m => d.setParent m q) d).childrenOf = d.childrenOf ∧
      (ms.foldl (fun d m => d.setParent m q) d).root = d.root ∧
      (ms.foldl (fun d m => d.setParent m q) d).transformMessages
        = d.transformMessages := by
  induction ms generalizing d with
  | nil => exact ⟨rfl, rfl, rfl, rfl⟩
  | cons m ms ih =>
    simpa [Doc.setParent] using ih (d.setParent m q)

/-- Field-level description of `Messages.apply` in the non-empty case:
two nodes are appended (title, then section), the message list is emptied,
the root keeps its index, and the children table gains the section's child
list and the root's new last child. -/
theorem messagesApply_fields (doc : Doc) (hq : qualifyingMessages doc ≠ []) :
    (messagesApply doc).nodes
        = doc.nodes ++ [messagesTitleNode, mkNode Kind.section] ∧
      (messagesApply doc).root = doc.root ∧
      (messagesApply doc).transformMessages = [] ∧
      (messagesApply doc).childrenOf
        = ((doc.childrenOf ++ [[], []]).set (doc.nodes.length + 1)
              (doc.nodes.length :: qualifyingMessages doc)).set doc.root
            (((doc.childrenOf ++ [[], []]).set (doc.nodes.length + 1)
                (doc.nodes.length :: qualifyingMessages doc)).getD doc.root []
              ++ [doc.nodes.length + 1]) := by
  rw [messagesApply]
  simp only [if_neg hq]
  obtain ⟨h4n, h4c, h4r, h4t⟩ := foldl_setParent_fields (qualifyingMessages doc)
    ((((doc.push messagesTitleNode).1.push
        (mkNode Kind.section)).1.setChildren
          ((doc.push messagesTitleNode).1.push (mkNode Kind.section)).2
          ((doc.push messagesTitleNode).2 :: qualifyingMessages doc)).setParent
      (doc.push messagesTitleNode).2
      (some ((doc.push messagesTitleNode).1.push (mkNode Kind.section)).2))
    (some ((doc.push messagesTitleNode).1.push (mkNode Kind.section)).2)
  refine ⟨?_, ?_, ?_, ?_⟩
  · simp only [messagesTitleNode] at h4n
    simp [Doc.setChildren, Doc.setParent, Doc.push, messagesTitleNode] at h4n ⊢
    rw [h4n]
  · simp only [messagesTitleNode] at h4r
    simp [Doc.setChildren, Doc.setParent, Doc.push, messagesTitleNode] at h4r ⊢
    rw [h4r]
  · simp [Doc.setChildren, Doc.setParent]
  · simp only [messagesTitleNode] at h4c h4r
    simp [Doc.setChildren, Doc.setParent, Doc.push, Doc.children,
      messagesTitleNode] at h4c h4r ⊢
    rw [h4c, h4r]

/-- C10: `Messages.apply` is a no-op when no pending message qualifies
(level at or above the writer threshold and no parent); otherwise it empties
the whole `transform_messages` list (including messages below the threshold)
and appends exactly one new section — holding a "Docutils System Messages"
title and the qualifying messages — as the document's last child. -/
theorem C10_messages_frame (doc : Doc)
    (hcl : doc.childrenOf.length = doc.nodes.length)
    (hroot : doc.root < doc.nodes.length) :
    ((∀ m ∈ doc.transformMessages,
        ¬(doc.reportLevel ≤ (doc.node m).level ∧ (doc.parent m).isNone))
      → messagesApply doc = doc) ∧
    ((∃ m ∈ doc.transformMessages,
        doc.reportLevel ≤ (doc.node m).level ∧ (doc.parent m).isNone)
      → (messagesApply doc).transformMessages = [] ∧
        (messagesApply doc).children doc.root
          = doc.children doc.root ++ [doc.nodes.length + 1] ∧
        ((messagesApply doc).node (doc.nodes.length + 1)).kind = Kind.section ∧
        (messagesApply doc).children (doc.nodes.length + 1)
          = doc.nodes.length :: qualifyingMessages doc ∧
        ((messagesApply doc).node doc.nodes.length).kind = Kind.title ∧
        ((messagesApply doc).node doc.nodes.length).text
          = "Docutils System Messages") := by
  constructor
  · intro hnone
    have hq : qualifyingMessages doc = [] := by
      rw [qualifyingMessages, List.filter_eq_nil_iff]
      intro m hm
      have := hnone m hm
      rw [Bool.and_eq_true, decide_eq_true_iff]
      tauto
    rw [messagesApply]
    simp [hq]
  · intro hsome
    have hq : qualifyingMessages doc ≠ [] := by
      rcases hsome with ⟨m, hm, hlev, hpar⟩
      have : m ∈ qualifyingMessages doc := by
        rw [qualifyingMessages, List.mem_filter]
        exact ⟨hm, by rw [Bool.and_eq_true, decide_eq_true_iff]; exact ⟨hlev, hpar⟩⟩
      exact fun he => by rw [he] at this; exact absurd this (List.not_mem_nil m)
    obtain ⟨hn, hr, ht, hc⟩ := messagesApply_fields doc hq
    have hXlen : ((doc.childrenOf ++ [[], []]).set (doc.nodes.length + 1)
        (doc.nodes.length :: qualifyingMessages doc)).length
        = doc.nodes.length + 2 := by
      simp [hcl]
    have hrS : doc.root ≠ doc.nodes.length + 1 := by omega
    have hXroot : ((doc.childrenOf ++ [[], []]).set (doc.nodes.length + 1)
        (doc.nodes.length :: qualifyingMessages doc)).getD doc.root []
        = doc.children doc.root := by
      rw [List.getD_eq_getElem?_getD, List.getElem?_set_ne (Ne.symm hrS),
        List.getElem?_append_left (by omega), Doc.children,
        List.getD_eq_getElem?_getD]
    refine ⟨ht, ?_, ?_, ?_, ?_, ?_⟩
    · rw [Doc.children, hc, List.getD_eq_getElem?_getD,
        List.getElem?_set_self (by rw [hXlen]; omega)]
      rw [hXroot]
      rfl
    · rw [Doc.node, hn, List.getD_eq_getElem?_getD,
        List.getElem?_append_right (by omega)]
      simp [mkNode]
    · rw [Doc.children, hc, List.getD_eq_getElem?_getD,
        List.getElem?_set_ne hrS, List.getElem?_set_self (by simp [hcl])]
      rfl
    · rw [Doc.node, hn, List.getD_eq_getElem?_getD,
        List.getElem?_append_right (by omega)]
      simp [messagesTitleNode, mkNode]
    · rw [Doc.node, hn, List.getD_eq_getElem?_getD,
        List.getElem?_append_right (by omega)]
      simp [messagesTitleNode, mkNode]

theorem C10_messages_frame_witness :
    exDocMsgs.childrenOf.length = exDocMsgs.nodes.length ∧
      exDocMsgs.root < exDocMsgs.nodes.length ∧
      (3 ∈ exDocMsgs.transformMessages ∧
        exDocMsgs.reportLevel ≤ (exDocMsgs.node 3).level ∧
        (exDocMsgs.parent 3).isNone) ∧
      (messagesApply exDocMsgs).transformMessages = [] ∧
      (messagesApply exDocMsgs).children exDocMsgs.root = [1, 5] ∧
      (messagesApply exDocMsgs).children 5 = [4, 3] := by
  have h := (C10_messages_frame exDocMsgs (by decide) (by decide)).2
    ⟨3, by decide, by decide, by decide⟩
  refine ⟨by decide, by decide, ⟨by decide, by decide, by decide⟩, h.1, ?_, ?_⟩
  · have := h.2.1
    simpa using this
  · have := h.2.2.2.1
    rw [show qualifyingMessages exDocMsgs = [3] from by decide] at this
    simpa using this

/-!
## Claim theorems: reference resolution (C1, C2)
-/

/-- C1: a not-yet-resolved reference-like node whose `refname` maps to a
non-`None` id in `nameids` is resolved by `visit_reference`: `refname` is
dropped, `refid` is set to the looked-up id, the target registered under that
id is marked referenced, and the node's `resolved` flag is set. -/
theorem C1_reference_resolution (resolvers : List (Doc → Nat → Option Doc))
    (doc : Doc) (n t id : Nat) (name : String)
    (hkind : (doc.node n).kind = Kind.reference ∨
      (doc.node n).kind = Kind.footnoteReference ∨
      (doc.node n).kind = Kind.citationReference)
    (hres : (doc.node n).resolved = false)
    (hname : (doc.node n).refname = some name)
    (hid : nameidsGet doc.nameids name = some id)
    (ht : idsLookup doc.idsTable id = some t)
    (hn : n < doc.nodes.length) (htl : t < doc.nodes.length) :
    ((visitReference resolvers doc n).node n).refname = none ∧
      ((visitReference resolvers doc n).node n).refid = some id ∧
      ((visitReference resolvers doc n).node n).resolved = true ∧
      ((visitReference resolvers doc n).node t).referenced = true := by
  have hvr : visitReference resolvers doc n = resolveReference doc n id := by
    rw [visitReference, if_neg (by rw [hres]; exact Bool.false_ne_true), hname]
    simp only [hid]
  rw [hvr, resolveReference]
  simp only []
  set A := { doc.node n with refname := none, refid := some id } with hA
  set doc1 := doc.setNode n A with hdoc1
  have hids : doc1.idsTable = doc.idsTable := by rw [hdoc1]; rfl
  rw [hids, ht]
  simp only []
  set B := { doc1.node t with referenced := true } with hB
  set doc2 := doc1.setNode t B with hdoc2
  set C := { doc2.node n with resolved := true } with hC
  have hlen1 : doc1.nodes.length = doc.nodes.length := by
    simp [hdoc1, Doc.setNode]
  have hlen2 : doc2.nodes.length = doc.nodes.length := by
    simp [hdoc2, Doc.setNode, hlen1]
  have hfn : (doc2.setNode n C).node n = C :=
    Doc.node_setNode_self doc2 n C (by omega)
  by_cases htn : t = n
  · subst htn
    have h1 : doc1.node t = A := Doc.node_setNode_self doc t A hn
    have h2 : doc2.node t = B := Doc.node_setNode_self doc1 t B (by omega)
    refine ⟨?_, ?_, ?_, ?_⟩ <;> rw [hfn, hC, h2, hB, h1, hA]
  · have h1 : doc1.node n = A := Doc.node_setNode_self doc n A hn
    have h2 : doc2.node n = doc1.node n := Doc.node_setNode_ne doc1 t n B htn
    have h4 : doc2.node t = B := Doc.node_setNode_self doc1 t B (by omega)
    have h5 : (doc2.setNode n C).node t = doc2.node t :=
      Doc.node_setNode_ne doc2 n t C (fun he => htn he.symm)
    refine ⟨?_, ?_, ?_, ?_⟩
    · rw [hfn, hC, h2, h1, hA]
    · rw [hfn, hC, h2, h1, hA]
    · rw [hfn, hC]
    · rw [h5, h4, hB]

/-- Setting the freshly appended last element of a list. -/
theorem set_concat_self {α : Type} (l : List α) (a b : α) :
    (l ++ [a]).set l.length b = l ++ [b] := by
  rw [List.set_append_right _ _ (Nat.le_refl _)]
  simp

/-- Index-generalised version of `set_concat_self`, convenient for `simp`. -/
theorem set_concat_self' {α : Type} (l : List α) (a b : α) (n : Nat)
    (h : n = l.length) : (l ++ [a]).set n b = l ++ [b] := by
  subst h; exact set_concat_self l a b

/-- Index-generalised read of a freshly appended last element. -/
theorem getElem?_concat_self' {α : Type} (l : List α) (a : α) (n : Nat)
    (h : n = l.length) : (l ++ [a])[n]? = some a := by
  subst h; exact List.getElem?_concat_length l a

/-- Reading to the left of an appended tail, with the bound as a side
condition `simp` can discharge. -/
theorem getElem?_append_left' {α : Type} (l r : List α) (n : Nat)
    (h : n < l.length) : (l ++ r)[n]? = l[n]? :=
  List.getElem?_append_left h

/-- Setting to the left of an appended tail, with the bound as a side
condition `simp` can discharge. -/
theorem set_append_left' {α : Type} (l r : List α) (n : Nat) (b : α)
    (h : n < l.length) : (l ++ r).set n b = l.set n b ++ r :=
  List.set_append_left n b h

/-- Field-level description of the error branch of `visit_reference`: two
nodes are appended (the system message, then the problematic node), the
message goes onto `transform_messages`, the problematic node replaces the
reference in its parent's child list and gets that parent. -/
theorem unknownReference_fields (doc : Doc) (n p : Nat) (name : String)
    (hpar : doc.parent n = some p) :
    unknownReference doc n name
        = { doc with
            nodes := doc.nodes
              ++ [{ mkNode Kind.systemMessage with
                      level := 3,
                      text := if (alistLookup doc.nameids name).isSome then
                          "Duplicate target name, cannot be used as a unique reference: \"" ++
                            name ++ "\"."
                        else "Unknown target name: \"" ++ name ++ "\".",
                      nodeIds := [doc.nextId],
                      backrefs := [doc.nextId + 1] },
                  { mkNode Kind.problematic with
                      rawsource := (doc.node n).rawsource,
                      text := (doc.node n).rawsource,
                      refid := some doc.nextId,
                      nodeIds := [doc.nextId + 1] }],
            childrenOf := (doc.childrenOf ++ [[], []]).set p
              (replaceFirst (doc.children p) n (doc.nodes.length + 1)),
            parentOf := (doc.parentOf ++ [none, none]).set (doc.nodes.length + 1)
              (some p),
            idsTable := doc.idsTable
              ++ [(doc.nextId, doc.nodes.length),
                  (doc.nextId + 1, doc.nodes.length + 1)],
            transformMessages := doc.transformMessages ++ [doc.nodes.length],
            nextId := doc.nextId + 2 } := by
  have hnp : n < doc.parentOf.length := doc.parent_some_lt n p hpar
  set msgText := (if (alistLookup doc.nameids name).isSome then
      "Duplicate target name, cannot be used as a unique reference: \"" ++
        name ++ "\"."
    else "Unknown target name: \"" ++ name ++ "\".") with hmt
  set R := (doc.node n).rawsource with hR
  set msg0 := { mkNode Kind.systemMessage with level := 3, text := msgText }
    with hmsg0
  set msg1 := { msg0 with nodeIds := [doc.nextId] } with hmsg1
  set msg2 := { msg1 with backrefs := [doc.nextId + 1] } with hmsg2
  set prb0 := { mkNode Kind.problematic with
      rawsource := R, text := R, refid := some doc.nextId } with hprb0
  set prb1 := { prb0 with nodeIds := [doc.nextId + 1] } with hprb1
  set A := { doc with
      nodes := doc.nodes ++ [msg0],
      childrenOf := doc.childrenOf ++ [[]],
      parentOf := doc.parentOf ++ [none],
      transformMessages := doc.transformMessages ++ [doc.nodes.length] } with hAd
  have hA : doc.reporterError msgText = (A, doc.nodes.length) := rfl
  have hAnode : A.node doc.nodes.length = msg0 := by
    rw [hAd, Doc.node]
    simp [List.getD_eq_getElem?_getD]
  set B := { doc with
      nodes := doc.nodes ++ [msg1],
      childrenOf := doc.childrenOf ++ [[]],
      parentOf := doc.parentOf ++ [none],
      idsTable := doc.idsTable ++ [(doc.nextId, doc.nodes.length)],
      transformMessages := doc.transformMessages ++ [doc.nodes.length],
      nextId := doc.nextId + 1 } with hBd
  have hB : A.setId doc.nodes.length = (B, doc.nextId) := by
    simp only [Doc.setId, hAnode]
    simp only [hAd, hBd, Doc.setNode]
    simp [set_concat_self', hmsg1, hmsg0, mkNode]
  set C := { doc with
      nodes := doc.nodes ++ [msg1, prb0],
      childrenOf := doc.childrenOf ++ [[], []],
      parentOf := doc.parentOf ++ [none, none],
      idsTable := doc.idsTable ++ [(doc.nextId, doc.nodes.length)],
      transformMessages := doc.transformMessages ++ [doc.nodes.length],
      nextId := doc.nextId + 1 } with hCd
  have hC : B.push prb0 = (C, doc.nodes.length + 1) := by
    rw [hBd, hCd, Doc.push]
    simp
  have hCnode : C.node (doc.nodes.length + 1) = prb0 := by
    rw [hCd, Doc.node, List.getD_eq_getElem?_getD,
      List.getElem?_append_right (Nat.le_add_right _ _)]
    simp
  set D := { doc with
      nodes := doc.nodes ++ [msg1, prb1],
      childrenOf := doc.childrenOf ++ [[], []],
      parentOf := doc.parentOf ++ [none, none],
      idsTable := doc.idsTable
        ++ [(doc.nextId, doc.nodes.length), (doc.nextId + 1, doc.nodes.length + 1)],
      transformMessages := doc.transformMessages ++ [doc.nodes.length],
      nextId := doc.nextId + 2 } with hDd
  have hD : C.setId (doc.nodes.length + 1) = (D, doc.nextId + 1) := by
    simp only [Doc.setId, hCnode]
    simp only [hCd, hDd, Doc.setNode]
    rw [show doc.nodes ++ [msg1, prb0] = (doc.nodes ++ [msg1]) ++ [prb0] from by simp]
    simp [set_concat_self', hprb1, hprb0, mkNode]
  have hDnode : D.node doc.nodes.length = msg1 := by
    rw [hDd, Doc.node, List.getD_eq_getElem?_getD,
      List.getElem?_append_right (Nat.le_refl _)]
    simp
  set E := { doc with
      nodes := doc.nodes ++ [msg2, prb1],
      childrenOf := doc.childrenOf ++ [[], []],
      parentOf := doc.parentOf ++ [none, none],
      idsTable := doc.idsTable
        ++ [(doc.nextId, doc.nodes.length), (doc.nextId + 1, doc.nodes.length + 1)],
      transformMessages := doc.transformMessages ++ [doc.nodes.length],
      nextId := doc.nextId + 2 } with hEd
  have hE : D.setNode doc.nodes.length { msg1 with
      backrefs := msg1.backrefs ++ [doc.nextId + 1] } = E := by
    rw [hDd, hEd, Doc.setNode]
    rw [show doc.nodes ++ [msg1, prb1] = (doc.nodes ++ [msg1]) ++ [prb1] from by simp]
    rw [set_append_left' _ _ _ _ (by simp)]
    simp [set_concat_self', hmsg2, hmsg1, hmsg0, mkNode]
  have hEpar : E.parent n = some p := by
    rw [hEd, Doc.parent]
    rw [Doc.parent] at hpar
    rw [List.getD_eq_getElem?_getD] at hpar ⊢
    rw [List.getElem?_append_left hnp]
    exact hpar
  have hEch : E.children p = doc.children p := by
    rw [hEd, Doc.children, Doc.children]
    rcases Nat.lt_or_ge p doc.childrenOf.length with h | h
    · simp [List.getD_eq_getElem?_getD, getElem?_append_left', h]
    · have h2 : doc.childrenOf.getD p ([] : List Nat) = [] :=
        List.getD_eq_default _ _ h
      rw [h2, List.getD_eq_getElem?_getD, List.getElem?_append_right h]
      cases hpk : p - doc.childrenOf.length with
      | zero => simp [hpk]
      | succ k => cases k <;> simp [hpk]
  have hgoal : unknownReference doc n name
      = (E.setChildren p
          (replaceFirst (E.children p) n (doc.nodes.length + 1))).setParent
        (doc.nodes.length + 1) (some p) := by
    rw [unknownReference]
    simp only [← hmt, ← hR, ← hmsg0, ← hprb0]
    rw [hA]
    simp only [hB]
    rw [hC]
    simp only [hD]
    simp only [hDnode]
    rw [hE, hEpar]
  rw [hgoal, hEch]
  rw [hEd, Doc.setChildren, Doc.setParent]

/-- C2: an unresolved reference whose name is not resolvable and that no
unknown-reference-resolver callback handles is replaced in its parent by a
`problematic` node wrapping the raw text; exactly one error diagnostic is
recorded ("Duplicate target name" when the name is a key of `nameids`, i.e.
ambiguous, else "Unknown target name"); the problematic node's `refid` is the
diagnostic's generated id and the diagnostic holds a backreference to the
problematic node's id. -/
theorem C2_unresolvable_reference (resolvers : List (Doc → Nat → Option Doc))
    (doc : Doc) (n p : Nat) (name : String)
    (hres : (doc.node n).resolved = false)
    (hname : (doc.node n).refname = some name)
    (hun : nameidsGet doc.nameids name = none)
    (hcb : tryResolvers resolvers doc n = none)
    (hpar : doc.parent n = some p)
    (hcl : doc.childrenOf.length = doc.nodes.length)
    (hpl : doc.parentOf.length = doc.nodes.length)
    (hp : p < doc.nodes.length) :
    (visitReference resolvers doc n).children p
        = replaceFirst (doc.children p) n (doc.nodes.length + 1) ∧
      ((visitReference resolvers doc n).node (doc.nodes.length + 1)).kind
        = Kind.problematic ∧
      ((visitReference resolvers doc n).node (doc.nodes.length + 1)).rawsource
        = (doc.node n).rawsource ∧
      ((visitReference resolvers doc n).node (doc.nodes.length + 1)).refid
        = some doc.nextId ∧
      ((visitReference resolvers doc n).node (doc.nodes.length + 1)).nodeIds
        = [doc.nextId + 1] ∧
      ((visitReference resolvers doc n).node doc.nodes.length).kind
        = Kind.systemMessage ∧
      ((visitReference resolvers doc n).node doc.nodes.length).level = 3 ∧
      ((visitReference resolvers doc n).node doc.nodes.length).text
        = (if (alistLookup doc.nameids name).isSome then
            "Duplicate target name, cannot be used as a unique reference: \"" ++
              name ++ "\"."
          else "Unknown target name: \"" ++ name ++ "\".") ∧
      ((visitReference resolvers doc n).node doc.nodes.length).backrefs
        = [doc.nextId + 1] ∧
      ((visitReference resolvers doc n).node doc.nodes.length).nodeIds
        = [doc.nextId] ∧
      (visitReference resolvers doc n).transformMessages
        = doc.transformMessages ++ [doc.nodes.length] ∧
      (visitReference resolvers doc n).parent (doc.nodes.length + 1) = some p := by
  have hvr : visitReference resolvers doc n = unknownReference doc n name := by
    rw [visitReference, if_neg (by rw [hres]; exact Bool.false_ne_true), hname]
    simp only [hun, hcb]
  rw [hvr, unknownReference_fields doc n p name hpar]
  refine ⟨?_, ?_, ?_, ?_, ?_, ?_, ?_, ?_, ?_, ?_, ?_, ?_⟩
  · rw [Doc.children]
    simp only []
    rw [List.getD_eq_getElem?_getD, List.getElem?_set_self (by simp [hcl]; omega)]
    rfl
  · rw [Doc.node]
    simp only []
    rw [List.getD_eq_getElem?_getD, List.getElem?_append_right (by omega)]
    simp [mkNode]
  · rw [Doc.node]
    simp only []
    rw [List.getD_eq_getElem?_getD, List.getElem?_append_right (by omega)]
    simp [mkNode]
  · rw [Doc.node]
    simp only []
    rw [List.getD_eq_getElem?_getD, List.getElem?_append_right (by omega)]
    simp [mkNode]
  · rw [Doc.node]
    simp only []
    rw [List.getD_eq_getElem?_getD, List.getElem?_append_right (by omega)]
    simp [mkNode]
  · rw [Doc.node]
    simp only []
    rw [List.getD_eq_getElem?_getD, List.getElem?_append_right (Nat.le_refl _)]
    simp [mkNode]
  · rw [Doc.node]
    simp only []
    rw [List.getD_eq_getElem?_getD, List.getElem?_append_right (Nat.le_refl _)]
    simp [mkNode]
  · rw [Doc.node]
    simp only []
    rw [List.getD_eq_getElem?_getD, List.getElem?_append_right (Nat.le_refl _)]
    simp [mkNode]
  · rw [Doc.node]
    simp only []
    rw [List.getD_eq_getElem?_getD, List.getElem?_append_right (Nat.le_refl _)]
    simp [mkNode]
  · rw [Doc.node]
    simp only []
    rw [List.getD_eq_getElem?_getD, List.getElem?_append_right (Nat.le_refl _)]
    simp [mkNode]
  · rfl
  · rw [Doc.parent]
    simp only []
    rw [List.getD_eq_getElem?_getD, List.getElem?_set_self (by simp [hpl])]
    rfl

theorem C1_reference_resolution_witness :
    ((exDocRef.node 1).resolved = false ∧
      (exDocRef.node 1).refname = some "x" ∧
      nameidsGet exDocRef.nameids "x" = some 7 ∧
      idsLookup exDocRef.idsTable 7 = some 2) ∧
      ((visitReference [] exDocRef 1).node 1).refname = none ∧
      ((visitReference [] exDocRef 1).node 1).refid = some 7 ∧
      ((visitReference [] exDocRef 1).node 1).resolved = true ∧
      ((visitReference [] exDocRef 1).node 2).referenced = true :=
  ⟨⟨by decide, by decide, by decide, by decide⟩,
    C1_reference_resolution [] exDocRef 1 2 7 "x" (Or.inl (by decide)) (by decide)
      (by decide) (by decide) (by decide) (by decide) (by decide)⟩

theorem C2_unresolvable_reference_witness :
    ((exDocRef2.node 1).refname = some "y" ∧
      nameidsGet exDocRef2.nameids "y" = none ∧
      exDocRef2.parent 1 = some 0) ∧
      (visitReference [] exDocRef2 1).children 0
        = replaceFirst (exDocRef2.children 0) 1 3 ∧
      ((visitReference [] exDocRef2 1).node 3).kind = Kind.problematic ∧
      ((visitReference [] exDocRef2 1).node 3).refid = some 5 ∧
      ((visitReference [] exDocRef2 1).node 2).kind = Kind.systemMessage ∧
      ((visitReference [] exDocRef2 1).node 2).backrefs = [6] ∧
      (visitReference [] exDocRef2 1).transformMessages = [2] := by
  have h := C2_unresolvable_reference [] exDocRef2 1 0 "y" (by decide) (by decide)
    (by decide) rfl (by decide) (by decide) (by decide) (by decide)
  exact ⟨⟨by decide, by decide, by decide⟩, h.1, h.2.1, h.2.2.2.1,
    h.2.2.2.2.2.1, h.2.2.2.2.2.2.2.2.1, h.2.2.2.2.2.2.2.2.2.2.1⟩

/-!
## Claim theorems: the string I/O round trip (C8)
-/

theorem latin1Decode_encode (s bs : List Nat) (h : latin1Encode s = some bs) :
    latin1Decode bs = some s := by
  induction s generalizing bs with
  | nil =>
    rw [latin1Encode] at h
    cases h
    rfl
  | cons c cs ih =>
    rw [latin1Encode] at h
    by_cases hc : c < 256
    · rw [if_pos hc] at h
      cases hcs : latin1Encode cs with
      | none => rw [hcs] at h; exact absurd h (by simp)
      | some rest =>
        rw [hcs] at h
        simp only [Option.map_some', Option.some.injEq] at h
        subst h
        rw [latin1Decode, if_pos hc, ih rest hcs]
        rfl
    · rw [if_neg hc] at h
      exact absurd h (by simp)

theorem utf8Step_encodeChar (c : Nat) (bs : List Nat)
    (h : utf8EncodeChar c = some bs) (t : List Nat) :
    ∃ b0 brest, bs = b0 :: brest ∧ utf8Step b0 (brest ++ t) = some (c, t) := by
  rw [utf8EncodeChar] at h
  by_cases h1 : c < 0x80
  · rw [if_pos h1] at h
    simp only [Option.some.injEq] at h
    subst h
    refine ⟨c, [], rfl, ?_⟩
    rw [List.nil_append, utf8Step, if_pos h1]
  · rw [if_neg h1] at h
    by_cases h2 : c < 0x800
    · rw [if_pos h2] at h
      simp only [Option.some.injEq] at h
      subst h
      refine ⟨0xC0 + c / 0x40, [0x80 + c % 0x40], rfl, ?_⟩
      have e1 : ¬(0xC0 + c / 0x40 < 0x80) := by omega
      have e2 : ¬(0xC0 + c / 0x40 < 0xC0) := by omega
      have e3 : 0xC0 + c / 0x40 < 0xE0 := by omega
      have e4 : utf8Cont (0x80 + c % 0x40) = true := by
        rw [utf8Cont]
        simp only [Bool.and_eq_true, decide_eq_true_iff]
        omega
      rw [List.cons_append, List.nil_append, utf8Step,
        if_neg e1, if_neg e2, if_pos e3,
        if_pos ⟨by simp, by rw [List.getD_cons_zero]; exact e4⟩]
      simp only [List.getD_cons_zero, List.drop_succ_cons, List.drop_zero,
        Option.some.injEq, Prod.mk.injEq]
      exact ⟨by omega, trivial⟩
    · rw [if_neg h2] at h
      by_cases h3 : c < 0x10000
      · rw [if_pos h3] at h
        simp only [Option.some.injEq] at h
        subst h
        refine ⟨0xE0 + c / 0x1000, [0x80 + c / 0x40 % 0x40, 0x80 + c % 0x40],
          rfl, ?_⟩
        have e1 : ¬(0xE0 + c / 0x1000 < 0x80) := by omega
        have e2 : ¬(0xE0 + c / 0x1000 < 0xC0) := by omega
        have e3 : ¬(0xE0 + c / 0x1000 < 0xE0) := by omega
        have e4 : 0xE0 + c / 0x1000 < 0xF0 := by omega
        have e5 : utf8Cont (0x80 + c / 0x40 % 0x40) = true := by
          rw [utf8Cont]
          simp only [Bool.and_eq_true, decide_eq_true_iff]
          omega
        have e6 : utf8Cont (0x80 + c % 0x40) = true := by
          rw [utf8Cont]
          simp only [Bool.and_eq_true, decide_eq_true_iff]
          omega
        rw [List.cons_append, List.cons_append, List.nil_append, utf8Step,
          if_neg e1, if_neg e2, if_neg e3, if_pos e4,
          if_pos ⟨by simp, by rw [List.getD_cons_zero]; exact e5,
            by rw [List.getD_cons_succ, List.getD_cons_zero]; exact e6⟩]
        simp only [List.getD_cons_zero, List.getD_cons_succ,
          List.drop_succ_cons, List.drop_zero, Option.some.injEq, Prod.mk.injEq]
        exact ⟨by omega, trivial⟩
      · rw [if_neg h3] at h
        by_cases h4 : c < 0x110000
        · rw [if_pos h4] at h
          simp only [Option.some.injEq] at h
          subst h
          refine ⟨0xF0 + c / 0x40000,
            [0x80 + c / 0x1000 % 0x40, 0x80 + c / 0x40 % 0x40, 0x80 + c % 0x40],
            rfl, ?_⟩
          have e1 : ¬(0xF0 + c / 0x40000 < 0x80) := by omega
          have e2 : ¬(0xF0 + c / 0x40000 < 0xC0) := by omega
          have e3 : ¬(0xF0 + c / 0x40000 < 0xE0) := by omega
          have e4 : ¬(0xF0 + c / 0x40000 < 0xF0) := by omega
          have e5 : 0xF0 + c / 0x40000 < 0xF8 := by omega
          have e6 : utf8Cont (0x80 + c / 0x1000 % 0x40) = true := by
            rw [utf8Cont]
            simp only [Bool.and_eq_true, decide_eq_true_iff]
            omega
          have e7 : utf8Cont (0x80 + c / 0x40 % 0x40) = true := by
            rw [utf8Cont]
            simp only [Bool.and_eq_true, decide_eq_true_iff]
            omega
          have e8 : utf8Cont (0x80 + c % 0x40) = true := by
            rw [utf8Cont]
            simp only [Bool.and_eq_true, decide_eq_true_iff]
            omega
          rw [List.cons_append, List.cons_append, List.cons_append,
            List.nil_append, utf8Step,
            if_neg e1, if_neg e2, if_neg e3, if_neg e4, if_pos e5,
            if_pos ⟨by simp, by rw [List.getD_cons_zero]; exact e6,
              by rw [List.getD_cons_succ, List.getD_cons_zero]; exact e7,
              by rw [List.getD_cons_succ, List.getD_cons_succ,
                List.getD_cons_zero]; exact e8⟩]
          simp only [List.getD_cons_zero, List.getD_cons_succ,
            List.drop_succ_cons, List.drop_zero, Option.some.injEq,
            Prod.mk.injEq]
          exact ⟨by omega, trivial⟩
        · rw [if_neg h4] at h
          exact absurd h (by simp)

theorem utf8DecodeFuel_encode (s : List Nat) :
    ∀ bs fuel, utf8Encode s = some bs → bs.length ≤ fuel →
      utf8DecodeFuel fuel bs = some s := by
  induction s with
  | nil =>
    intro bs fuel h _
    rw [utf8Encode] at h
    cases h
    cases fuel <;> rfl
  | cons c cs ih =>
    intro bs fuel h hf
    rw [utf8Encode] at h
    cases hc : utf8EncodeChar c with
    | none => rw [hc] at h; exact absurd h (by simp)
    | some cbs =>
      rw [hc] at h
      cases hcs : utf8Encode cs with
      | none => rw [hcs] at h; exact absurd h (by simp)
      | some rest =>
        rw [hcs] at h
        simp only [Option.map_some', Option.some.injEq] at h
        subst h
        obtain ⟨b0, brest, hbs, hstep⟩ := utf8Step_encodeChar c cbs hc rest
        subst hbs
        cases fuel with
        | zero => simp at hf
        | succ f =>
          rw [List.cons_append, utf8DecodeFuel, hstep]
          show (utf8DecodeFuel f rest).map (fun cs => c :: cs) = some (c :: cs)
          rw [ih rest f hcs (by simp at hf ⊢; omega)]
          rfl

theorem utf8Decode_encode (s bs : List Nat) (h : utf8Encode s = some bs) :
    utf8Decode bs = some s :=
  utf8DecodeFuel_encode s bs bs.length h (Nat.le_refl _)

/-- C8 counterexample: the round trip fails as universally stated — the euro
sign (U+20AC) is not Latin-1-encodable, so `StringOutput.write` with
`output_encoding` `latin-1` fails and no destination is produced at all. -/
theorem C8_counterexample :
    StringOutput.write (some "latin-1") [0x20AC] = none ∧
      ¬∃ d, StringOutput.write (some "latin-1") [0x20AC] = some d ∧
        StringInput.read (some "latin-1") none none none d = some [0x20AC] := by
  have h : StringOutput.write (some "latin-1") [0x20AC] = none := by decide
  refine ⟨h, ?_⟩
  rintro ⟨d, hd, _⟩
  rw [h] at hd
  exact Option.noConfusion hd

/-- C8 amended: for every encoding in the negotiation list with a concrete
codec (`utf-8`, `latin-1`) and every string the encoding can encode, writing
with `StringOutput` and reading the stored destination back with
`StringInput` under the same encoding returns the original string. -/
theorem C8_roundtrip (E : String) (hE : E = "utf-8" ∨ E = "latin-1")
    (s d : List Nat) (hw : StringOutput.write (some E) s = some d)
    (codeset : Option String) (localeEnc defaultLocaleEnc : Option (Option String)) :
    StringInput.read (some E) codeset localeEnc defaultLocaleEnc d = some s := by
  rcases hE with rfl | rfl
  · rw [StringOutput.write, codecEncode, if_pos rfl] at hw
    rw [StringInput.read]
    obtain ⟨l, hl⟩ : ∃ l, decodeEncodings (some "utf-8") codeset localeEnc
        defaultLocaleEnc = some "utf-8" :: l := ⟨_, rfl⟩
    rw [Input.decode, hl]
    simp [decodeTry, codecDecode, utf8Decode_encode s d hw]
  · rw [StringOutput.write, codecEncode, if_neg (by decide), if_pos rfl] at hw
    rw [StringInput.read]
    obtain ⟨l, hl⟩ : ∃ l, decodeEncodings (some "latin-1") codeset localeEnc
        defaultLocaleEnc = some "latin-1" :: l := ⟨_, rfl⟩
    rw [Input.decode, hl]
    simp [decodeTry, codecDecode, latin1Decode_encode s d hw]

theorem C8_roundtrip_witness :
    StringOutput.write (some "utf-8") [104, 0x20AC] = some [104, 226, 130, 172] ∧
      StringInput.read (some "utf-8") none none none [104, 226, 130, 172]
        = some [104, 0x20AC] :=
  ⟨by decide,
    C8_roundtrip "utf-8" (Or.inl rfl) [104, 0x20AC] [104, 226, 130, 172]
      (by decide) none none none⟩

/-!
## Claim theorems: transition placement (C3, C4, C5)
-/

theorem not_mem_take_indexOf (a : Nat) (l : List Nat) :
    a ∉ l.take (l.indexOf a) := by
  induction l with
  | nil => simp
  | cons b t ih =>
    by_cases hba : b = a
    · subst hba
      simp [List.indexOf_cons_self]
    · rw [List.indexOf_cons_ne t hba, List.take_succ_cons]
      intro hmem
      rcases List.mem_cons.1 hmem with h | h
      · exact hba h.symm
      · exact ih h

theorem take_indexOf_cons_drop (a : Nat) (l : List Nat) (h : a ∈ l) :
    l.take (l.indexOf a) ++ a :: l.drop (l.indexOf a + 1) = l := by
  induction l with
  | nil => cases h
  | cons b t ih =>
    by_cases hba : b = a
    · subst hba
      simp [List.indexOf_cons_self]
    · rcases List.mem_cons.1 h with h1 | h1
      · exact absurd h1.symm hba
      · rw [List.indexOf_cons_ne t hba, List.take_succ_cons, List.drop_succ_cons,
          List.cons_append, ih h1]

theorem insertIdx_eq_take_cons_drop (l : List Nat) (i : Nat) (x : Nat)
    (h : i ≤ l.length) : l.insertIdx i x = l.take i ++ x :: l.drop i := by
  induction l generalizing i with
  | nil =>
    have hi : i = 0 := by simpa using h
    subst hi
    simp
  | cons b t ih =>
    cases i with
    | zero => simp
    | succ j =>
      rw [List.insertIdx_succ_cons, List.take_succ_cons, List.drop_succ_cons,
        List.cons_append, ih j (by simpa using h)]

theorem insertIdx_length_add (pre post : List Nat) (k : Nat) (x : Nat) :
    List.insertIdx (pre.length + k) x (pre ++ post)
      = pre ++ List.insertIdx k x post := by
  induction pre with
  | nil => simp
  | cons b t ih =>
    rw [show (b :: t).length + k = (t.length + k) + 1 from by simp; omega,
      List.cons_append, List.insertIdx_succ_cons, ih, List.cons_append]

theorem climbRel_climbLoop (doc : Doc) (k x : Nat) (r : Option Nat)
    (h : ClimbRel doc k x r) :
    ∀ fuel, k < fuel → ∀ px, doc.parent x = some px →
      (r = none →
        climbLoop doc fuel x ((doc.children px).indexOf x) = ClimbResult.root) ∧
      (∀ a, r = some a → ∃ pa, doc.parent a = some pa ∧
        climbLoop doc fuel x ((doc.children px).indexOf x)
          = ClimbResult.found a ((doc.children pa).indexOf a)) := by
  induction h with
  | stop x p hp hne =>
    intro fuel hf px hpx
    rw [hp] at hpx
    obtain rfl : p = px := by injection hpx
    cases fuel with
    | zero => omega
    | succ f =>
      rw [climbLoop, hp]
      simp only [Option.elim]
      rw [if_neg hne]
      exact ⟨fun hr => Option.noConfusion hr,
        fun a ha => by injection ha with ha; subst ha; exact ⟨p, hp, rfl⟩⟩
  | root x p hp hlast hroot =>
    intro fuel hf px hpx
    rw [hp] at hpx
    injection hpx with hpx
    subst hpx
    cases fuel with
    | zero => omega
    | succ f =>
      rw [climbLoop, hp]
      simp only [Option.elim]
      rw [if_pos hlast, hroot]
      exact ⟨fun _ => rfl, fun a ha => Option.noConfusion ha⟩
  | up k x p r hp hlast hps hrec ih =>
    intro fuel hf px hpx
    rw [hp] at hpx
    injection hpx with hpx
    subst hpx
    cases fuel with
    | zero => omega
    | succ f =>
      obtain ⟨gp, hgp⟩ := Option.isSome_iff_exists.1 hps
      rw [climbLoop, hp]
      simp only [Option.elim]
      rw [if_pos hlast, hgp]
      simp only [Option.elim]
      exact ih f (by omega) gp hgp

theorem climbLoop_found_inv (doc : Doc) (depth : Nat → Nat)
    (hdepth : ∀ b q, doc.parent b = some q → depth b = depth q + 1)
    (fuel : Nat) :
    ∀ s i sib sidx, climbLoop doc fuel s i = ClimbResult.found sib sidx →
      ∃ psib, doc.parent sib = some psib ∧
        sidx ≠ (doc.children psib).length - 1 ∧
        ((sib = s ∧ sidx = i) ∨
          (sidx = (doc.children psib).indexOf sib ∧ depth sib < depth s)) := by
  induction fuel with
  | zero =>
    intro s i sib sidx h
    rw [climbLoop] at h
    exact ClimbResult.noConfusion h
  | succ f ih =>
    intro s i sib sidx h
    rw [climbLoop] at h
    cases hps : doc.parent s with
    | none =>
      rw [hps] at h
      exact ClimbResult.noConfusion h
    | some p =>
      rw [hps] at h
      simp only [Option.elim] at h
      by_cases hlast : i = (doc.children p).length - 1
      · rw [if_pos hlast] at h
        cases hgp : doc.parent p with
        | none =>
          rw [hgp] at h
          exact ClimbResult.noConfusion h
        | some gp =>
          rw [hgp] at h
          simp only [Option.elim] at h
          obtain ⟨psib, hpsib, hne, hcase⟩ := ih p _ sib sidx h
          refine ⟨psib, hpsib, hne, Or.inr ?_⟩
          have hds : depth s = depth p + 1 := hdepth s p hps
          rcases hcase with ⟨rfl, rfl⟩ | ⟨hidx, hlt⟩
          · rw [hgp] at hpsib
            injection hpsib with hpsib
            subst hpsib
            exact ⟨rfl, by omega⟩
          · exact ⟨hidx, by omega⟩
      · rw [if_neg hlast] at h
        injection h with h1 h2
        subst h1
        subst h2
        exact ⟨p, hps, hlast, Or.inl ⟨rfl, rfl⟩⟩

theorem depthOk_all (doc : Doc) (depth : Nat → Nat)
    (hpl : doc.parentOf.length = doc.nodes.length)
    (h : ∀ b, b < doc.nodes.length → depthOk doc depth b) :
    ∀ b q, doc.parent b = some q → depth b = depth q + 1 := by
  intro b q hbq
  have hb : b < doc.nodes.length := by
    have := doc.parent_some_lt b q hbq
    omega
  have h2 := h b hb
  unfold depthOk at h2
  rw [hbq] at h2
  exact h2

theorem parentOk_all (doc : Doc)
    (hpl : doc.parentOf.length = doc.nodes.length)
    (h : ∀ b, b < doc.nodes.length → parentOk doc b) :
    ∀ b q, doc.parent b = some q → q < doc.nodes.length ∧ b ∈ doc.children q := by
  intro b q hbq
  have hb : b < doc.nodes.length := by
    have := doc.parent_some_lt b q hbq
    omega
  have h2 := h b hb
  unfold parentOk at h2
  rw [hbq] at h2
  exact h2

/-- C3: for a transition that passes the legality checks, the relocation
behaviour of `visit_transition`: not the last child — stays in place; last
child and the upward walk finds an ancestor that is not the last child of its
own parent — removed from its parent and reinserted immediately after that
ancestor; the walk reaches the document root — an error is inserted
immediately after the transition, which is not moved. -/
theorem C3_transition_relocation (doc : Doc) (n p : Nat) (depth : Nat → Nat)
    (hkind : (doc.node n).kind = Kind.transition)
    (hpar : doc.parent n = some p)
    (hn : n < doc.nodes.length)
    (hcl : doc.childrenOf.length = doc.nodes.length)
    (hpl : doc.parentOf.length = doc.nodes.length)
    (hpc : ∀ b, b < doc.nodes.length → parentOk doc b)
    (hdep : ∀ b, b < doc.nodes.length → depthOk doc depth b)
    (hlegal : transitionError doc n p = none) :
    (((doc.children p).indexOf n ≠ (doc.children p).length - 1 →
        visitTransition doc n = doc) ∧
      (∀ k a, (doc.children p).indexOf n = (doc.children p).length - 1 →
        ClimbRel doc k n (some a) → k ≤ doc.nodes.length →
        ∃ pa, doc.parent a = some pa ∧
          (visitTransition doc n).children p = (doc.children p).erase n ∧
          ((doc.children p).Nodup → n ∉ (visitTransition doc n).children p) ∧
          (visitTransition doc n).children pa
            = List.insertIdx ((doc.children pa).indexOf a + 1) n (doc.children pa) ∧
          (visitTransition doc n).parent n = some pa) ∧
      (∀ k, (doc.children p).indexOf n = (doc.children p).length - 1 →
        ClimbRel doc k n none → k ≤ doc.nodes.length →
        (visitTransition doc n).children p
          = List.insertIdx ((doc.children p).indexOf n + 1) doc.nodes.length
              (doc.children p) ∧
        ((visitTransition doc n).node doc.nodes.length).kind = Kind.systemMessage ∧
        ((visitTransition doc n).node doc.nodes.length).level = 3 ∧
        ((visitTransition doc n).node doc.nodes.length).text
          = "Document may not end with a transition." ∧
        (visitTransition doc n).parent n = some p)) := by
  obtain ⟨hp_lt, hmem⟩ := parentOk_all doc hpl hpc n p hpar
  have hdepth := depthOk_all doc depth hpl hdep
  have hvt : visitTransition doc n
      = transitionMove doc n p ((doc.children p).indexOf n) := by
    rw [visitTransition, hpar]
    simp only [Option.elim]
    rw [transitionLegality, hlegal]
    simp only [Option.elim]
  refine ⟨?_, ?_, ?_⟩
  · intro hne
    rw [hvt]
    unfold transitionMove
    rw [if_pos hne]
  · intro k a hlast hrel hk
    obtain ⟨pa, hpa, hclimb⟩ :=
      ((climbRel_climbLoop doc k n (some a) hrel (doc.nodes.length + 1)
        (by omega) p hpar).2 a rfl)
    obtain ⟨psib, hpsib, hne1, hcase⟩ :=
      climbLoop_found_inv doc depth hdepth (doc.nodes.length + 1) n
        ((doc.children p).indexOf n) a ((doc.children pa).indexOf a) hclimb
    obtain rfl : pa = psib := by
      rw [hpa] at hpsib
      injection hpsib
    have hdlt : depth a < depth n := by
      rcases hcase with ⟨rfl, hidx⟩ | ⟨_, hlt⟩
      · rw [hpa] at hpar
        obtain rfl : pa = p := by injection hpar
        exact absurd (hidx.trans hlast) hne1
      · exact hlt
    have hane : pa ≠ p := by
      intro he
      subst he
      have h1 : depth n = depth pa + 1 := hdepth n pa hpar
      have h2 : depth a = depth pa + 1 := hdepth a pa hpa
      omega
    obtain ⟨hpa_lt, hamem⟩ := parentOk_all doc hpl hpc a pa hpa
    refine ⟨pa, hpa, ?_⟩
    rw [hvt]
    unfold transitionMove
    rw [if_neg (by omega), hclimb]
    simp only []
    rw [hpa]
    simp only [Option.elim]
    have hche : (doc.setChildren p ((doc.children p).erase n)).children pa
        = doc.children pa :=
      Doc.children_setChildren_ne doc p pa _ (fun he => hane he.symm)
    have hchp1 : ((doc.setChildren p ((doc.children p).erase n)).setChildren pa
        (List.insertIdx ((doc.children pa).indexOf a + 1) n
          ((doc.setChildren p ((doc.children p).erase n)).children pa))).children p
        = (doc.setChildren p ((doc.children p).erase n)).children p :=
      Doc.children_setChildren_ne _ pa p _ hane
    have hchp2 : (doc.setChildren p ((doc.children p).erase n)).children p
        = (doc.children p).erase n :=
      Doc.children_setChildren_self doc p _ (by omega)
    refine ⟨?_, ?_, ?_, ?_⟩
    · rw [Doc.children_setParent, hchp1, hchp2]
    · intro hnd hmem2
      rw [Doc.children_setParent, hchp1, hchp2] at hmem2
      rw [List.Nodup.mem_erase_iff hnd] at hmem2
      exact hmem2.1 rfl
    · rw [Doc.children_setParent,
        Doc.children_setChildren_self _ pa _ (by simp [Doc.setChildren]; omega),
        hche]
    · exact Doc.parent_setParent_self _ n _ (by simp [Doc.setChildren]; omega)
  · intro k hlast hrel hk
    have hclimb :=
      (climbRel_climbLoop doc k n none hrel (doc.nodes.length + 1)
        (by omega) p hpar).1 rfl
    rw [hvt]
    unfold transitionMove
    rw [if_neg (by omega), hclimb]
    simp only []
    have hrch : (doc.reporterError
        "Document may not end with a transition.").1.childrenOf
        = doc.childrenOf ++ [[]] := rfl
    have hch : (doc.reporterError
        "Document may not end with a transition.").1.children p
        = doc.children p := by
      rw [Doc.children, hrch, List.getD_eq_getElem?_getD,
        List.getElem?_append_left (by omega), ← List.getD_eq_getElem?_getD,
        ← Doc.children]
    rw [hch]
    have hE : doc.nodes.length ≠ n := by omega
    have hrn : (doc.reporterError
        "Document may not end with a transition.").1.nodes
        = doc.nodes ++ [{ mkNode Kind.systemMessage with
            level := 3,
            text := "Document may not end with a transition." }] := rfl
    have hnodeE : (doc.reporterError
        "Document may not end with a transition.").1.node doc.nodes.length
        = { mkNode Kind.systemMessage with
            level := 3,
            text := "Document may not end with a transition." } := by
      rw [Doc.node, hrn, List.getD_eq_getElem?_getD, List.getElem?_concat_length]
      rfl
    have hr2 : (doc.reporterError "Document may not end with a transition.").2
        = doc.nodes.length := rfl
    refine ⟨?_, ?_, ?_, ?_, ?_⟩
    · rw [Doc.children_setParent,
        Doc.children_setChildren_self _ p _ (by rw [hrch]; simp; omega)]
      rfl
    · rw [Doc.node_setParent, Doc.node_setChildren, hnodeE]
      rfl
    · rw [Doc.node_setParent, Doc.node_setChildren, hnodeE]
    · rw [Doc.node_setParent, Doc.node_setChildren, hnodeE]
    · rw [hr2, Doc.parent_setParent_ne _ _ n _ hE, Doc.parent_setChildren]
      have hrp : (doc.reporterError
          "Document may not end with a transition.").1.parentOf
          = doc.parentOf ++ [none] := rfl
      rw [Doc.parent, hrp, List.getD_eq_getElem?_getD,
        List.getElem?_append_left (by omega), ← List.getD_eq_getElem?_getD,
        ← Doc.parent]
      exact hpar

theorem C3_transition_relocation_witness :
    (exDocTrans.node 3).kind = Kind.transition ∧
      transitionError exDocTrans 3 1 = none ∧
      (exDocTrans.children 1).indexOf 3 = (exDocTrans.children 1).length - 1 ∧
      (visitTransition exDocTrans 3).children 1 = [2] ∧
      (visitTransition exDocTrans 3).children 0 = [1, 3, 4] ∧
      (visitTransition exDocTrans 3).parent 3 = some 0 := by
  have hrel : ClimbRel exDocTrans 1 3 (some 1) :=
    ClimbRel.up 0 3 1 (some 1) (by decide) (by decide) (by decide)
      (ClimbRel.stop 1 0 (by decide) (by decide))
  have h := (C3_transition_relocation exDocTrans 3 1 exDocTransDepth (by decide)
    (by decide) (by decide) (by decide) (by decide) (by decide) (by decide)
    (by decide)).2.1 1 1 (by decide) hrel (by decide)
  obtain ⟨pa, hpa, h1, h2, h3, h4⟩ := h
  obtain rfl : pa = 0 := by
    have h5 : (some pa : Option Nat) = some 0 := by rw [← hpa]; decide
    injection h5
  refine ⟨by decide, by decide, by decide, ?_, ?_, h4⟩
  · rw [h1]
    decide
  · rw [h3]
    decide

theorem indexOf_append_cons_cons (A B : List Nat) (E n : Nat)
    (hA : n ∉ A) (hE : E ≠ n) :
    (A ++ E :: n :: B).indexOf n = A.length + 1 := by
  induction A with
  | nil =>
    rw [List.nil_append, List.indexOf_cons_ne _ hE, List.indexOf_cons_self]
    rfl
  | cons a t ih =>
    have han : a ≠ n := fun h => hA (h ▸ List.mem_cons_self a t)
    rw [List.cons_append, List.indexOf_cons_ne _ han,
      ih (fun h => hA (List.mem_cons_of_mem a h))]
    simp

theorem insertIdx_after_two (A B : List Nat) (a b x : Nat) :
    List.insertIdx (A.length + 2) x (A ++ a :: b :: B) = A ++ a :: b :: x :: B := by
  induction A with
  | nil => rfl
  | cons c t ih =>
    simp only [List.cons_append, List.length_cons]
    rw [show t.length + 1 + 2 = (t.length + 2) + 1 from by omega,
      List.insertIdx_succ_cons, ih]

/-- Common analysis of `visit_transition` on an illegally placed transition
(universal.py lines 251-271): the reported error node carries the given text,
it lands in the parent's child list exactly at the transition's former
position, the transition itself stays somewhere in the tree, and — whenever
the insertion does not make the transition the last child — the parent's
child list is exactly the original one with the error inserted and the
transition's index has shifted up by one. -/
theorem transitionIllegal_spec (doc : Doc) (n p : Nat) (depth : Nat → Nat)
    (T : String)
    (hpar : doc.parent n = some p)
    (hn : n < doc.nodes.length)
    (hcl : doc.childrenOf.length = doc.nodes.length)
    (hpl : doc.parentOf.length = doc.nodes.length)
    (hpc : ∀ b, b < doc.nodes.length → parentOk doc b)
    (hdep : ∀ b, b < doc.nodes.length → depthOk doc depth b)
    (herr : transitionError doc n p = some T) :
    ((visitTransition doc n).node doc.nodes.length).kind = Kind.systemMessage ∧
    ((visitTransition doc n).node doc.nodes.length).level = 3 ∧
    ((visitTransition doc n).node doc.nodes.length).text = T ∧
    (∃ tail, (visitTransition doc n).children p
      = (doc.children p).take ((doc.children p).indexOf n)
        ++ doc.nodes.length :: tail) ∧
    (∃ q, n ∈ (visitTransition doc n).children q) ∧
    ((doc.children p).indexOf n + 1 ≠ (doc.children p).length →
      (visitTransition doc n).children p
        = List.insertIdx ((doc.children p).indexOf n) doc.nodes.length
            (doc.children p) ∧
      ((visitTransition doc n).children p).indexOf n
        = (doc.children p).indexOf n + 1) := by
  obtain ⟨hp_lt, hmem⟩ := parentOk_all doc hpl hpc n p hpar
  have hdepth := depthOk_all doc depth hpl hdep
  have hidx_lt : (doc.children p).indexOf n < (doc.children p).length :=
    List.indexOf_lt_length.mpr hmem
  have hEn : doc.nodes.length ≠ n := by omega
  have hr2 : (doc.reporterError T).2 = doc.nodes.length := rfl
  have hrch : (doc.reporterError T).1.childrenOf = doc.childrenOf ++ [[]] := rfl
  have hrpf : (doc.reporterError T).1.parentOf = doc.parentOf ++ [none] := rfl
  have hrn : (doc.reporterError T).1.nodes
      = doc.nodes ++ [{ mkNode Kind.systemMessage with level := 3, text := T }] :=
    rfl
  have hch0 : (doc.reporterError T).1.children p = doc.children p := by
    rw [Doc.children, hrch, List.getD_eq_getElem?_getD,
      List.getElem?_append_left (by omega), ← List.getD_eq_getElem?_getD,
      ← Doc.children]
  have hvt : visitTransition doc n
      = transitionMove (transitionLegality doc n p).1 n p
          (transitionLegality doc n p).2 := by
    rw [visitTransition, hpar]
    simp only [Option.elim]
  have hleg1 : (transitionLegality doc n p).1
      = ((doc.reporterError T).1.setChildren p
          (List.insertIdx ((doc.children p).indexOf n) (doc.reporterError T).2
            ((doc.reporterError T).1.children p))).setParent
          (doc.reporterError T).2 (some p) := by
    rw [transitionLegality, herr]
    simp only [Option.elim]
  have hleg2 : (transitionLegality doc n p).2 = (doc.children p).indexOf n + 1 := by
    rw [transitionLegality, herr]
    simp only [Option.elim]
  rw [hr2, hch0] at hleg1
  set D1 := ((doc.reporterError T).1.setChildren p
      (List.insertIdx ((doc.children p).indexOf n) doc.nodes.length
        (doc.children p))).setParent doc.nodes.length (some p) with hD1def
  rw [hleg1, hleg2] at hvt
  have hD1n : D1.nodes
      = doc.nodes ++ [{ mkNode Kind.systemMessage with level := 3, text := T }] := by
    rw [hD1def]
    rfl
  have hD1nlen : D1.nodes.length = doc.nodes.length + 1 := by
    rw [hD1n]
    simp
  have hD1clen : D1.childrenOf.length = doc.childrenOf.length + 1 := by
    rw [hD1def]
    simp [Doc.setParent, Doc.setChildren, hrch]
  have hD1chp : D1.children p
      = List.insertIdx ((doc.children p).indexOf n) doc.nodes.length
          (doc.children p) := by
    rw [hD1def, Doc.children_setParent]
    exact Doc.children_setChildren_self _ p _ (by rw [hrch]; simp; omega)
  have hD1nodeE : D1.node doc.nodes.length
      = { mkNode Kind.systemMessage with level := 3, text := T } := by
    rw [hD1def, Doc.node_setParent, Doc.node_setChildren, Doc.node, hrn,
      List.getD_eq_getElem?_getD, List.getElem?_concat_length]
    rfl
  have hD1parn : ∀ b, b ≠ doc.nodes.length → D1.parent b = doc.parent b := by
    intro b hb
    rw [hD1def, Doc.parent_setParent_ne _ _ _ _ (fun h => hb h.symm),
      Doc.parent_setChildren]
    rcases Nat.lt_or_ge b doc.parentOf.length with hblt | hbge
    · rw [Doc.parent, hrpf, List.getD_eq_getElem?_getD,
        List.getElem?_append_left hblt, ← List.getD_eq_getElem?_getD, ← Doc.parent]
    · rw [Doc.parent, Doc.parent, hrpf, List.getD_eq_default _ _ (by simp; omega),
        List.getD_eq_default _ _ (by omega)]
  have hD1parE : D1.parent doc.nodes.length = some p := by
    rw [hD1def]
    exact Doc.parent_setParent_self _ _ _ (by simp [Doc.setChildren, hrpf]; omega)
  have hD1chne : ∀ q, q ≠ p → D1.children q = doc.children q := by
    intro q hq
    rw [hD1def, Doc.children_setParent,
      Doc.children_setChildren_ne _ _ _ _ (fun h => hq h.symm)]
    rcases Nat.lt_or_ge q doc.childrenOf.length with hqlt | hqge
    · rw [Doc.children, hrch, List.getD_eq_getElem?_getD,
        List.getElem?_append_left hqlt, ← List.getD_eq_getElem?_getD,
        ← Doc.children]
    · rcases Nat.eq_or_lt_of_le hqge with heq | hqgt
      · rw [Doc.children, Doc.children, hrch, List.getD_eq_getElem?_getD,
          ← heq, List.getElem?_concat_length, List.getD_eq_default _ _ (by omega)]
        rfl
      · rw [Doc.children, Doc.children, hrch,
          List.getD_eq_default _ _ (by simp; omega),
          List.getD_eq_default _ _ (by omega)]
  have hdropidx : (doc.children p).drop ((doc.children p).indexOf n)
      = n :: (doc.children p).drop ((doc.children p).indexOf n + 1) := by
    have h1 := List.drop_left ((doc.children p).take ((doc.children p).indexOf n))
      (n :: (doc.children p).drop ((doc.children p).indexOf n + 1))
    rw [List.length_take, min_eq_left (le_of_lt hidx_lt),
      take_indexOf_cons_drop n _ hmem] at h1
    exact h1
  have hL1eq : List.insertIdx ((doc.children p).indexOf n) doc.nodes.length
      (doc.children p)
      = (doc.children p).take ((doc.children p).indexOf n)
        ++ doc.nodes.length :: n
          :: (doc.children p).drop ((doc.children p).indexOf n + 1) := by
    rw [insertIdx_eq_take_cons_drop _ _ _ (le_of_lt hidx_lt), hdropidx]
  have hL1idx : (List.insertIdx ((doc.children p).indexOf n) doc.nodes.length
      (doc.children p)).indexOf n = (doc.children p).indexOf n + 1 := by
    rw [hL1eq, indexOf_append_cons_cons _ _ _ _ (not_mem_take_indexOf n _) hEn,
      List.length_take, min_eq_left (le_of_lt hidx_lt)]
  have hinslen : (List.insertIdx ((doc.children p).indexOf n) doc.nodes.length
      (doc.children p)).length = (doc.children p).length + 1 :=
    List.length_insertIdx _ _ (le_of_lt hidx_lt)
  have hlen1 : (D1.children p).length = (doc.children p).length + 1 := by
    rw [hD1chp]
    exact hinslen
  have hD1mem : n ∈ D1.children p := by
    rw [hD1chp, List.mem_insertIdx (le_of_lt hidx_lt)]
    exact Or.inr hmem
  have hdepth1 : ∀ b q, D1.parent b = some q →
      (if b = doc.nodes.length then depth p + 1 else depth b)
        = (if q = doc.nodes.length then depth p + 1 else depth q) + 1 := by
    intro b q hbq
    by_cases hbE : b = doc.nodes.length
    · subst hbE
      rw [hD1parE] at hbq
      injection hbq with hbq
      subst hbq
      rw [if_pos rfl, if_neg (by omega)]
    · rw [hD1parn b hbE] at hbq
      have hqlt := (parentOk_all doc hpl hpc b q hbq).1
      rw [if_neg hbE, if_neg (by omega)]
      exact hdepth b q hbq
  rw [hvt]
  unfold transitionMove
  by_cases hlast : (doc.children p).indexOf n + 1 ≠ (D1.children p).length - 1
  · rw [if_pos hlast]
    refine ⟨?_, ?_, ?_,
      ⟨n :: (doc.children p).drop ((doc.children p).indexOf n + 1), ?_⟩,
      ⟨p, hD1mem⟩, fun _ => ⟨hD1chp, by rw [hD1chp, hL1idx]⟩⟩
    · rw [hD1nodeE]
      rfl
    · rw [hD1nodeE]
    · rw [hD1nodeE]
    · rw [hD1chp, hL1eq]
  · rw [if_neg hlast]
    have hlen : (doc.children p).indexOf n + 1 = (doc.children p).length := by
      have h := not_not.mp hlast
      omega
    cases hcl2 : climbLoop D1 (D1.nodes.length + 1) n
        ((doc.children p).indexOf n + 1) with
    | out =>
      simp only []
      refine ⟨?_, ?_, ?_,
        ⟨n :: (doc.children p).drop ((doc.children p).indexOf n + 1), ?_⟩,
        ⟨p, hD1mem⟩, fun hne => absurd hlen hne⟩
      · rw [hD1nodeE]
        rfl
      · rw [hD1nodeE]
      · rw [hD1nodeE]
      · rw [hD1chp, hL1eq]
    | root =>
      simp only []
      have hr2ch : (D1.reporterError
          "Document may not end with a transition.").1.childrenOf
          = D1.childrenOf ++ [[]] := rfl
      have hr2n : (D1.reporterError
          "Document may not end with a transition.").1.nodes
          = D1.nodes ++ [{ mkNode Kind.systemMessage with
              level := 3,
              text := "Document may not end with a transition." }] := rfl
      have hr2b : (D1.reporterError
          "Document may not end with a transition.").2 = D1.nodes.length := rfl
      have hchp2 : (D1.reporterError
          "Document may not end with a transition.").1.children p
          = D1.children p := by
        rw [Doc.children, hr2ch, List.getD_eq_getElem?_getD,
          List.getElem?_append_left (by omega), ← List.getD_eq_getElem?_getD,
          ← Doc.children]
      have hnodeE2 : (D1.reporterError
          "Document may not end with a transition.").1.node doc.nodes.length
          = { mkNode Kind.systemMessage with level := 3, text := T } := by
        rw [Doc.node, hr2n, List.getD_eq_getElem?_getD,
          List.getElem?_append_left (by omega), ← List.getD_eq_getElem?_getD,
          ← Doc.node, hD1nodeE]
      refine ⟨?_, ?_, ?_,
        ⟨n :: D1.nodes.length
          :: (doc.children p).drop ((doc.children p).indexOf n + 1), ?_⟩,
        ⟨p, ?_⟩, fun hne => absurd hlen hne⟩
      · rw [Doc.node_setParent, Doc.node_setChildren, hnodeE2]
        rfl
      · rw [Doc.node_setParent, Doc.node_setChildren, hnodeE2]
      · rw [Doc.node_setParent, Doc.node_setChildren, hnodeE2]
      · rw [Doc.children_setParent,
          Doc.children_setChildren_self _ p _ (by rw [hr2ch]; simp; omega),
          hchp2, hD1chp, hL1idx, hr2b,
          show (doc.children p).indexOf n + 1 + 1
            = ((doc.children p).take ((doc.children p).indexOf n)).length + 2 from by
            rw [List.length_take, min_eq_left (le_of_lt hidx_lt)],
          hL1eq, insertIdx_after_two]
      · rw [Doc.children_setParent,
          Doc.children_setChildren_self _ p _ (by rw [hr2ch]; simp; omega),
          hchp2, hD1chp, hL1idx, hr2b]
        exact (List.mem_insertIdx (by omega)).mpr
          (Or.inr ((List.mem_insertIdx (le_of_lt hidx_lt)).mpr (Or.inr hmem)))
    | found sib sidx =>
      simp only []
      obtain ⟨sp0, hsp0, hne1, hcase⟩ :=
        climbLoop_found_inv D1
          (fun b => if b = doc.nodes.length then depth p + 1 else depth b)
          hdepth1 (D1.nodes.length + 1) n ((doc.children p).indexOf n + 1)
          sib sidx hcl2
      rcases hcase with ⟨hsibn, hsidx2⟩ | ⟨hsidx, hlt⟩
      · exfalso
        rw [hsibn, hD1parn n (by omega), hpar] at hsp0
        injection hsp0 with hsp0
        rw [← hsp0] at hne1
        exact hne1 (by omega)
      · have hnE : n ≠ doc.nodes.length := by omega
        rw [if_neg hnE] at hlt
        have hdn : depth n = depth p + 1 := hdepth n p hpar
        have hsibE : sib ≠ doc.nodes.length := by
          intro he
          rw [if_pos he] at hlt
          omega
        rw [if_neg hsibE] at hlt
        have hsp0doc : doc.parent sib = some sp0 := by
          rw [← hD1parn sib hsibE]
          exact hsp0
        obtain ⟨hsp0_lt, hsibmem⟩ := parentOk_all doc hpl hpc sib sp0 hsp0doc
        have hdsib : depth sib = depth sp0 + 1 := hdepth sib sp0 hsp0doc
        have hspne : sp0 ≠ p := by
          intro he
          subst he
          omega
        rw [hsp0]
        simp only [Option.elim]
        have hd2chp : (D1.setChildren p ((D1.children p).erase n)).children p
            = (D1.children p).erase n :=
          Doc.children_setChildren_self _ p _ (by omega)
        have hd2chsp : (D1.setChildren p ((D1.children p).erase n)).children sp0
            = doc.children sp0 := by
          rw [Doc.children_setChildren_ne _ _ _ _ (fun h => hspne h.symm),
            hD1chne sp0 hspne]
        have hnotmem2 : n ∉ (doc.children p).take ((doc.children p).indexOf n)
            ++ [doc.nodes.length] := by
          intro h
          rcases List.mem_append.1 h with h | h
          · exact not_mem_take_indexOf n _ h
          · simp at h
            omega
        have hererase : (D1.children p).erase n
            = (doc.children p).take ((doc.children p).indexOf n)
              ++ doc.nodes.length
                :: (doc.children p).drop ((doc.children p).indexOf n + 1) := by
          rw [hD1chp, hL1eq,
            show (doc.children p).take ((doc.children p).indexOf n)
              ++ doc.nodes.length :: n
                :: (doc.children p).drop ((doc.children p).indexOf n + 1)
              = ((doc.children p).take ((doc.children p).indexOf n)
                  ++ [doc.nodes.length])
                ++ n :: (doc.children p).drop ((doc.children p).indexOf n + 1) from by
              rw [List.append_assoc]
              rfl,
            List.erase_append_right _ hnotmem2, List.erase_cons_head,
            List.append_assoc]
          rfl
        have hsidxlt : sidx < (doc.children sp0).length := by
          rw [hsidx, hD1chne sp0 hspne]
          exact List.indexOf_lt_length.mpr hsibmem
        refine ⟨?_, ?_, ?_,
          ⟨(doc.children p).drop ((doc.children p).indexOf n + 1), ?_⟩,
          ⟨sp0, ?_⟩, fun hne => absurd hlen hne⟩
        · rw [Doc.node_setParent, Doc.node_setChildren, Doc.node_setChildren,
            hD1nodeE]
          rfl
        · rw [Doc.node_setParent, Doc.node_setChildren, Doc.node_setChildren,
            hD1nodeE]
        · rw [Doc.node_setParent, Doc.node_setChildren, Doc.node_setChildren,
            hD1nodeE]
        · rw [Doc.children_setParent,
            Doc.children_setChildren_ne _ _ _ _ hspne, hd2chp, hererase]
        · rw [Doc.children_setParent,
            Doc.children_setChildren_self _ sp0 _ (by simp [Doc.setChildren]; omega),
            hd2chsp, List.mem_insertIdx (by omega)]
          exact Or.inl rfl

/-- C4: a transition that illegally begins its parent — at child index 0, at
index 1 behind a title, or at index 2 behind a title and a subtitle — causes
a "Document or section may not begin with a transition." error node to be
created and inserted in the parent at the transition's former position; the
transition stays in the tree, and whenever the insertion does not make it the
last child, the parent's child list is exactly the original one with the
error inserted immediately before the transition, whose index has shifted up
by one. -/
theorem C4_begin_transition (doc : Doc) (n p : Nat) (depth : Nat → Nat)
    (hkind : (doc.node n).kind = Kind.transition)
    (hpar : doc.parent n = some p)
    (hn : n < doc.nodes.length)
    (hcl : doc.childrenOf.length = doc.nodes.length)
    (hpl : doc.parentOf.length = doc.nodes.length)
    (hpc : ∀ b, b < doc.nodes.length → parentOk doc b)
    (hdep : ∀ b, b < doc.nodes.length → depthOk doc depth b)
    (hbegin : (doc.children p).indexOf n = 0 ∨
      ((doc.node ((doc.children p).getD 0 0)).kind = Kind.title ∧
        ((doc.children p).indexOf n = 1 ∨
          ((doc.node ((doc.children p).getD 1 0)).kind = Kind.subtitle ∧
            (doc.children p).indexOf n = 2)))) :
    ((visitTransition doc n).node doc.nodes.length).kind = Kind.systemMessage ∧
    ((visitTransition doc n).node doc.nodes.length).level = 3 ∧
    ((visitTransition doc n).node doc.nodes.length).text
      = "Document or section may not begin with a transition." ∧
    (∃ tail, (visitTransition doc n).children p
      = (doc.children p).take ((doc.children p).indexOf n)
        ++ doc.nodes.length :: tail) ∧
    (∃ q, n ∈ (visitTransition doc n).children q) ∧
    ((doc.children p).indexOf n + 1 ≠ (doc.children p).length →
      (visitTransition doc n).children p
        = List.insertIdx ((doc.children p).indexOf n) doc.nodes.length
            (doc.children p) ∧
      ((visitTransition doc n).children p).indexOf n
        = (doc.children p).indexOf n + 1) := by
  have herr : transitionError doc n p
      = some "Document or section may not begin with a transition." := by
    rw [transitionError]
    exact if_pos hbegin
  exact transitionIllegal_spec doc n p depth _ hpar hn hcl hpl hpc hdep herr

theorem C4_begin_transition_witness :
    (exDocTrans4.node 2).kind = Kind.transition ∧
      (exDocTrans4.children 1).indexOf 2 = 0 ∧
      ((visitTransition exDocTrans4 2).node 5).kind = Kind.systemMessage ∧
      ((visitTransition exDocTrans4 2).node 5).level = 3 ∧
      ((visitTransition exDocTrans4 2).node 5).text
        = "Document or section may not begin with a transition." ∧
      (visitTransition exDocTrans4 2).children 1 = [5, 2, 3] ∧
      ((visitTransition exDocTrans4 2).children 1).indexOf 2 = 1 := by
  have h := C4_begin_transition exDocTrans4 2 1 exDocTrans4Depth (by decide)
    (by decide) (by decide) (by decide) (by decide) (by decide) (by decide)
    (Or.inl (by decide))
  obtain ⟨h1, h2, h3, _h4, _h5, h6⟩ := h
  have h7 := h6 (by decide)
  refine ⟨by decide, by decide, h1, h2, h3, ?_, ?_⟩
  · rw [h7.1]
    decide
  · rw [h7.2]
    decide

/-- C5: a transition whose immediately preceding sibling is itself a
transition causes an adjacent-transitions error node to be created and
inserted in the parent at the transition's former position; the transition
stays in the tree, and whenever the insertion does not make it the last
child, the parent's child list is exactly the original one with the error
inserted immediately before the transition, whose index has shifted up by
one. -/
theorem C5_adjacent_transitions (doc : Doc) (n p : Nat) (depth : Nat → Nat)
    (hkind : (doc.node n).kind = Kind.transition)
    (hpar : doc.parent n = some p)
    (hn : n < doc.nodes.length)
    (hcl : doc.childrenOf.length = doc.nodes.length)
    (hpl : doc.parentOf.length = doc.nodes.length)
    (hpc : ∀ b, b < doc.nodes.length → parentOk doc b)
    (hdep : ∀ b, b < doc.nodes.length → depthOk doc depth b)
    (hpos : 1 ≤ (doc.children p).indexOf n)
    (hprev : (doc.node
        ((doc.children p).getD ((doc.children p).indexOf n - 1) 0)).kind
      = Kind.transition) :
    ((visitTransition doc n).node doc.nodes.length).kind = Kind.systemMessage ∧
    ((visitTransition doc n).node doc.nodes.length).level = 3 ∧
    ((visitTransition doc n).node doc.nodes.length).text
      = ("At least one body element must separate transitions; "
        ++ "adjacent transitions are not allowed.") ∧
    (∃ tail, (visitTransition doc n).children p
      = (doc.children p).take ((doc.children p).indexOf n)
        ++ doc.nodes.length :: tail) ∧
    (∃ q, n ∈ (visitTransition doc n).children q) ∧
    ((doc.children p).indexOf n + 1 ≠ (doc.children p).length →
      (visitTransition doc n).children p
        = List.insertIdx ((doc.children p).indexOf n) doc.nodes.length
            (doc.children p) ∧
      ((visitTransition doc n).children p).indexOf n
        = (doc.children p).indexOf n + 1) := by
  have hnb : ¬((doc.children p).indexOf n = 0 ∨
      ((doc.node ((doc.children p).getD 0 0)).kind = Kind.title ∧
        ((doc.children p).indexOf n = 1 ∨
          ((doc.node ((doc.children p).getD 1 0)).kind = Kind.subtitle ∧
            (doc.children p).indexOf n = 2)))) := by
    rintro (h0 | ⟨ht, h1 | ⟨hs, h2⟩⟩)
    · omega
    · rw [h1, show (1 : Nat) - 1 = 0 from rfl] at hprev
      rw [ht] at hprev
      exact absurd hprev (by decide)
    · rw [h2, show (2 : Nat) - 1 = 1 from rfl] at hprev
      rw [hs] at hprev
      exact absurd hprev (by decide)
  have herr : transitionError doc n p
      = some ("At least one body element must separate transitions; "
        ++ "adjacent transitions are not allowed.") := by
    rw [transitionError]
    exact (if_neg hnb).trans (if_pos hprev)
  exact transitionIllegal_spec doc n p depth _ hpar hn hcl hpl hpc hdep herr

theorem C5_adjacent_transitions_witness :
    (exDocTrans5.node 3).kind = Kind.transition ∧
      (exDocTrans5.node 2).kind = Kind.transition ∧
      (exDocTrans5.children 1).indexOf 3 = 1 ∧
      ((visitTransition exDocTrans5 3).node 6).kind = Kind.systemMessage ∧
      ((visitTransition exDocTrans5 3).node 6).text
        = ("At least one body element must separate transitions; "
          ++ "adjacent transitions are not allowed.") ∧
      (visitTransition exDocTrans5 3).children 1 = [2, 6, 3, 4] ∧
      ((visitTransition exDocTrans5 3).children 1).indexOf 3 = 2 := by
  have h := C5_adjacent_transitions exDocTrans5 3 1 exDocTrans5Depth (by decide)
    (by decide) (by decide) (by decide) (by decide) (by decide) (by decide)
    (by decide) (by decide)
  obtain ⟨h1, h2, h3, _h4, _h5, h6⟩ := h
  have h7 := h6 (by decide)
  refine ⟨by decide, by decide, by decide, h1, h3, ?_, ?_⟩
  · rw [h7.1]
    decide
  · rw [h7.2]
    decide

end Docutils
